import Mathlib

/-!
# Energy-aware command selection of the UAV node

A shallow embedding of `src/UAVNode.cc`:

* `UAVNode::selectNextCommand` (lines 62-143), the scheduler transition that picks the
  next command, decides about a detour to the nearest charging node and updates the queue;
* `UAVNode::energyToNearestCN` (lines 370-379) and `UAVNode::energyForCommand` (lines 344-368);
* `UAVNode::getSpeedFromAngle` (lines 203-238), the interpolation over the 11-point table;
* `UAVNode::getCurrentFromAngle` (lines 246-287), the same scan followed by a normal draw;
* `UAVNode::endOfOperation` (lines 298-342), the cyclic walk that forecasts how many commands
  the remaining charge allows.

Conventions of the embedding:

* `double` and `float` values are exact rationals (`ℚ`); comparisons and arithmetic are exact.
  Where the rounding of `float` additions and the range of the `int` counter decide a property
  (the termination of `endOfOperation`), the loop is given a second time in machine arithmetic
  (`endOfOperationLoopF`, with `roundFloat` and `intMax`).
* A `Command *` is a value of the inductive type `Command`; its dynamic type is the constructor.
  `Command.Unrecognized` stands for a command object for which every `dynamic_cast` of
  `selectNextCommand` yields `nullptr`.
* The classes behind the headers that are not part of `src/` (`Battery`, the command execution
  engines, the registry of charging nodes) appear as the record `Env` of oracles or as
  definitions modelled from the specification, each marked as such.
  Where the question is whether a call writes to the node, the same collaborators appear as the
  record `Collaborators` of operations that take and return the node state
  (`endOfOperationLoopM`).
* A `throw cRuntimeError(msg)` is the `Except.error msg` component of a result; the node state is
  returned next to it, so that "the state is unchanged when the call fails" is a statement about
  the model.
* The one `EV_INFO`, `EV_WARN` or `EV_ERROR` line that a successful call writes is returned as
  an `EnergyLog`; it names the branch of the energy management that was taken.
* A read of a table row that does not exist is an outcome of its own (`Returned.outOfBounds`):
  the scan stops there, so any other outcome means that no such read took place.
* The loop `while (true)` of `endOfOperation` takes a bound on the number of iterations; `none`
  means that the loop is still running when the bound is reached.
-/

namespace UAV

/-! ## Data model -/

/-- A charging node: an external entity with a fixed position (`ChargingNode::getX/getY/getZ`). -/
structure ChargingNode where
  x : ℚ
  y : ℚ
  z : ℚ
deriving DecidableEq

/-- The commands of the queue. The first four constructors are the classes `WaypointCommand`,
`TakeoffCommand`, `HoldPositionCommand` and `ChargeCommand` that `selectNextCommand` tests with
`dynamic_cast`; `Unrecognized` is any other `Command` object. `WaypointCommand(x, y, z)` and
`ChargeCommand(cn)` are the two constructor calls that occur in `src/UAVNode.cc`. -/
inductive Command where
  | Waypoint (x y z : ℚ)
  | Takeoff (x y z : ℚ)
  | HoldPosition (x y z : ℚ)
  | Charge (cn : ChargingNode)
  | Unrecognized (x y z : ℚ)
deriving DecidableEq

/-- The result of `getCeeType()`. -/
inductive CeeType where
  | WAYPOINT
  | TAKEOFF
  | HOLDPOSITION
  | CHARGE
deriving DecidableEq

/-- Severity of a log line (`EV_INFO`, `EV_WARN`, `EV_ERROR`). -/
inductive LogLevel where
  | INFO
  | WARN
  | ERROR
deriving DecidableEq

/-- The five log lines of the energy management (lines 102, 105, 109, 113 and 116), one per
branch: "Recharging now.", "One of our precious UAVs just died", "OK. UAV has enough energy to
continue", "Going to Charging Node. Attention! Energy insufficient" and "Going to Charging
Node". -/
inductive EnergyLog where
  | RechargingNow
  | JustDied
  | EnoughEnergy
  | GoingToCNInsufficient
  | GoingToCN
deriving DecidableEq

/-- The macro each log line is written with. -/
def EnergyLog.level : EnergyLog → LogLevel
  | EnergyLog.RechargingNow => LogLevel.INFO
  | EnergyLog.JustDied => LogLevel.ERROR
  | EnergyLog.EnoughEnergy => LogLevel.INFO
  | EnergyLog.GoingToCNInsufficient => LogLevel.WARN
  | EnergyLog.GoingToCN => LogLevel.INFO

/-- The two log lines of the detour branch (the final `else` of lines 111-131). -/
def EnergyLog.isDetour : EnergyLog → Bool
  | EnergyLog.GoingToCNInsufficient => true
  | EnergyLog.GoingToCN => true
  | _ => false

/-- A command execution engine (CEE): its kind, the command it was constructed from, the
origin `(x0, y0, z0)` set by `setFromCoordinates` and the target `(x1, y1, z1)` read by
`getX1/getY1/getZ1`. -/
structure CommandExecEngine where
  ceeType : CeeType
  command : Command
  x0 : ℚ
  y0 : ℚ
  z0 : ℚ
  x1 : ℚ
  y1 : ℚ
  z1 : ℚ
deriving DecidableEq

/-- The battery of the node: capacity and remaining charge in mAh. -/
structure Battery where
  capacity : ℚ
  remaining : ℚ
deriving DecidableEq

/-- `Battery::getRemaining()`. -/
def Battery.getRemaining (b : Battery) : ℚ := b.remaining

/-- Modelled from the spec: `Battery::isEmpty()` is declared in a header that is not part of
`src/`. The specification keeps `remaining` in `[0, capacity]` and calls the battery empty when
no charge remains, so the battery is empty exactly when `remaining` is not positive. -/
def Battery.isEmpty (b : Battery) : Bool := decide (b.remaining ≤ 0)

/-- The part of the node state that `selectNextCommand` reads or writes: the pose
(`getX(), getY(), getZ()`), the deque `commands`, the flag `commandsRepeat`, the battery and the
active engine `commandExecEngine` (`none` is `nullptr`). -/
structure UAVNode where
  x : ℚ
  y : ℚ
  z : ℚ
  commands : List Command
  commandsRepeat : Bool
  battery : Battery
  commandExecEngine : Option CommandExecEngine
deriving DecidableEq

/-- The collaborators of the node whose code is not part of `src/`:
`findNearestCN` (the registry of charging nodes), `predictConsumption` of an initialised
engine, and `deriveTarget`, the target pose that `initializeCEE` derives for an engine that is
not a waypoint engine, from the command and the origin. The oracles are total functions: a call
of a collaborator returns, and returns the same value for the same engine. -/
structure Env where
  findNearestCN : ℚ → ℚ → ℚ → ChargingNode
  predictConsumption : CommandExecEngine → ℚ
  deriveTarget : Command → ℚ → ℚ → ℚ → ℚ × ℚ × ℚ

/-! ## Engines -/

/-- A freshly constructed engine of the given kind for a command (`new WaypointCEE(*this, *command)`
and its siblings); origin and target are not set yet. -/
def newCEE (t : CeeType) (c : Command) : CommandExecEngine :=
  ⟨t, c, 0, 0, 0, 0, 0, 0⟩

/-- `CommandExecEngine::setFromCoordinates`. -/
def CommandExecEngine.setFromCoordinates (e : CommandExecEngine) (x y z : ℚ) :
    CommandExecEngine :=
  { e with x0 := x, y0 := y, z0 := z }

/-- Modelled from the spec: `initializeCEE` lives in the engine classes, which are not part of
`src/`. Section 4.2 of the specification: it "derives the target pose from the Command"; for a
waypoint the target is the commanded position, for the other kinds the derivation is the
oracle `Env.deriveTarget`. -/
def CommandExecEngine.initializeCEE (env : Env) (e : CommandExecEngine) : CommandExecEngine :=
  match e.command with
  | Command.Waypoint x y z => { e with x1 := x, y1 := y, z1 := z }
  | c =>
    let t := env.deriveTarget c e.x0 e.y0 e.z0
    { e with x1 := t.1, y1 := t.2.1, z1 := t.2.2 }

/-- The chain of `dynamic_cast`s of `selectNextCommand` (lines 71-84): the engine constructed
for the front command, or `none` when every cast fails. -/
def scheduledFor (c : Command) : Option CommandExecEngine :=
  match c with
  | Command.Waypoint _ _ _ => some (newCEE CeeType.WAYPOINT c)
  | Command.Takeoff _ _ _ => some (newCEE CeeType.TAKEOFF c)
  | Command.HoldPosition _ _ _ => some (newCEE CeeType.HOLDPOSITION c)
  | Command.Charge _ => some (newCEE CeeType.CHARGE c)
  | Command.Unrecognized _ _ _ => none

/-- The test `dynamic_cast<ChargeCommand *>(c)` succeeds. -/
def Command.isCharge : Command → Bool
  | Command.Charge _ => true
  | _ => false

/-- The test `dynamic_cast<TakeoffCommand *>(c)` succeeds. -/
def Command.isTakeoff : Command → Bool
  | Command.Takeoff _ _ _ => true
  | _ => false

/-- The engine bound to an origin: `setFromCoordinates` followed by `initializeCEE`
(lines 86-87 and 123-124). -/
def bindCEE (env : Env) (e : CommandExecEngine) (x y z : ℚ) : CommandExecEngine :=
  (e.setFromCoordinates x y z).initializeCEE env

/-- The waypoint engine to the charging node nearest to `(x, y, z)`, bound to that origin
(lines 118-124 and 373-377). -/
def goToChargingNodeCEE (env : Env) (x y z : ℚ) : CommandExecEngine :=
  let cn := env.findNearestCN x y z
  let goToChargingNode := Command.Waypoint cn.x cn.y cn.z
  bindCEE env (newCEE CeeType.WAYPOINT goToChargingNode) x y z

/-- `UAVNode::energyToNearestCN` (lines 370-379). -/
def energyToNearestCN (env : Env) (fromX fromY fromZ : ℚ) : ℚ :=
  env.predictConsumption (goToChargingNodeCEE env fromX fromY fromZ)

/-! ## Selection of the next command -/

/-- The local `energyForSheduled` of line 89. -/
def energyForSheduled (env : Env) (scheduledCEE : CommandExecEngine) : ℚ :=
  env.predictConsumption scheduledCEE

/-- The local `energyToCN` of line 90. -/
def energyToCN (env : Env) (s : UAVNode) : ℚ :=
  energyToNearestCN env s.x s.y s.z

/-- The local `energyToCNAfter` of line 91. -/
def energyToCNAfter (env : Env) (scheduledCEE : CommandExecEngine) : ℚ :=
  energyToNearestCN env scheduledCEE.x1 scheduledCEE.y1 scheduledCEE.z1

/-- The local `energyRemaining` of line 92. -/
def energyRemaining (s : UAVNode) : ℚ :=
  s.battery.getRemaining

/-- What lines 101-131 leave behind: the log line, the queue and the engine to activate. -/
structure Elected where
  log : EnergyLog
  commands : List Command
  scheduledCEE : CommandExecEngine
deriving DecidableEq

/-- Lines 101-131 ("Elect and activate the next command/CEE") for a queue `front :: rest`
and the bound engine of `front`. -/
def elect (env : Env) (s : UAVNode) (front : Command) (rest : List Command)
    (scheduledCEE : CommandExecEngine) : Elected :=
  if scheduledCEE.ceeType = CeeType.CHARGE then
    ⟨EnergyLog.RechargingNow, front :: rest, scheduledCEE⟩
  else if s.battery.isEmpty then
    ⟨EnergyLog.JustDied, front :: rest, scheduledCEE⟩
  else if energyRemaining s
      ≥ energyForSheduled env scheduledCEE + energyToCNAfter env scheduledCEE then
    ⟨EnergyLog.EnoughEnergy, front :: rest, scheduledCEE⟩
  else
    let level :=
      if energyRemaining s < energyToCN env s then EnergyLog.GoingToCNInsufficient
      else EnergyLog.GoingToCN
    let cn := env.findNearestCN s.x s.y s.z
    let chargeCommand := Command.Charge cn
    let scheduledCommand := front
    -- pop_front, push_front(chargeCommand), push_front(scheduledCommand)
    ⟨level, scheduledCommand :: chargeCommand :: rest, goToChargingNodeCEE env s.x s.y s.z⟩

/-- Lines 133-142: activate the engine, dequeue the front command and re-append it in repeat
mode unless it is a charge or a takeoff command. The queue handed over is never empty. -/
def activate (s : UAVNode) (commands : List Command) (scheduledCEE : CommandExecEngine) :
    UAVNode :=
  match commands with
  | [] => { s with commandExecEngine := some scheduledCEE }
  | finishedCommand :: tail =>
    if s.commandsRepeat && !finishedCommand.isCharge && !finishedCommand.isTakeoff then
      { s with commandExecEngine := some scheduledCEE, commands := tail ++ [finishedCommand] }
    else
      { s with commandExecEngine := some scheduledCEE, commands := tail }

/-- `UAVNode::selectNextCommand` (lines 62-143). The first component is the thrown error or
the log line of the branch taken, the second the node state after the call. -/
def selectNextCommand (env : Env) (s : UAVNode) : Except String EnergyLog × UAVNode :=
  match s.commands with
  | [] => (Except.error "selectNextCommand(): UAV has no commands left.", s)
  | front :: rest =>
    match scheduledFor front with
    | none => (Except.error "loadNextCommand(): invalid cast.", s)
    | some cee =>
      let scheduledCEE := bindCEE env cee s.x s.y s.z
      let e := elect env s front rest scheduledCEE
      (Except.ok e.log, activate s e.commands e.scheduledCEE)

/-! ## Sequences of selections -/

/-- What happens to the node between two selections: the active engine moves the vehicle and
drains or charges the battery (`updateState`); the queue and the repeat flag are only written by
`selectNextCommand`. -/
structure Progress where
  x : ℚ
  y : ℚ
  z : ℚ
  battery : Battery
deriving DecidableEq

/-- The node after the progress `p` of the active engine. -/
def UAVNode.advance (s : UAVNode) (p : Progress) : UAVNode :=
  { s with x := p.x, y := p.y, z := p.z, battery := p.battery }

/-- The node state after a sequence of selections, each one preceded by the progress made
since the previous selection. -/
def selections (env : Env) : List Progress → UAVNode → UAVNode
  | [], s => s
  | p :: ps, s => selections env ps (selectNextCommand env (s.advance p)).2

/-- Every selection of the sequence succeeds and takes a branch other than the detour. -/
def noDetours (env : Env) : List Progress → UAVNode → Bool
  | [], _ => true
  | p :: ps, s =>
    (match (selectNextCommand env (s.advance p)).1 with
      | Except.ok l => !l.isDetour
      | Except.error _ => false)
    && noDetours env ps (selectNextCommand env (s.advance p)).2

/-- The commands that repeat mode re-appends: neither a charge nor a takeoff command
(the test of lines 138-140). -/
def Command.isReinjected (c : Command) : Bool :=
  !c.isCharge && !c.isTakeoff

/-! ## Speed for a climb angle -/

/-- How a call of the interpolation ends: with a value, with a thrown `cRuntimeError`, or with a
read of a table row that does not exist (the index of the row is kept). -/
inductive Returned where
  | value (v : ℚ)
  | thrown (msg : String)
  | outOfBounds (row : Nat)
deriving DecidableEq

/-- The table `samples[11][2]` of `getSpeedFromAngle` (lines 205-217): climb angle in degrees
and speed in m/s. -/
def speedSamples : List (ℚ × ℚ) :=
  [ (-90.0, 1.837303),
    (-75.6, 1.842921),
    (-57.9, 2.013429),
    (-34.8, 2.450476),
    (-15.6, 3.583821),
    (0.0, 8.056741),
    (15.6, 6.020143),
    (34.8, 3.337107),
    (57.9, 2.822109),
    (75.6, 2.719016),
    (90.0, 2.719048) ]

/-- The loop bound `sizeof(samples)` of line 223: the size in bytes of 11 rows of 2 `double`s
of 8 bytes. -/
def sizeofSpeedSamples : Nat := 11 * 2 * 8

/-- Row `idx` of the speed table, `none` outside the table. -/
def speedRow (idx : Nat) : Option (ℚ × ℚ) := speedSamples.get? idx

/-- The loop of lines 223-230, entered with the loop variable `idx`. The condition of line 224
is evaluated left to right: row `idx - 1` is read first, row `idx` only when the first
comparison holds. -/
def speedScan (angle : ℚ) (idx : Nat) : Returned :=
  if idx < sizeofSpeedSamples then
    match speedRow (idx - 1) with
    | none => Returned.outOfBounds (idx - 1)
    | some lo =>
      if lo.1 < angle then
        match speedRow idx with
        | none => Returned.outOfBounds idx
        | some hi =>
          if angle ≤ hi.1 then
            let slope := (hi.2 - lo.2) / (hi.1 - lo.1)
            let interpol := lo.2 + slope * (angle - lo.1)
            Returned.value interpol
          else speedScan angle (idx + 1)
      else speedScan angle (idx + 1)
  else Returned.thrown "UAVNode::getSpeedFromAngle() unexpected angle passed"
termination_by sizeofSpeedSamples - idx

/-- `UAVNode::getSpeedFromAngle` (lines 203-238). -/
def getSpeedFromAngle (angle : ℚ) : Returned :=
  match speedRow 0 with
  | none => Returned.outOfBounds 0
  | some first =>
    if angle = first.1 then Returned.value first.2
    else speedScan angle 1

/-- The angle of sample `i` (0 outside the table). -/
def sampleAngle (i : Nat) : ℚ := ((speedRow i).getD (0, 0)).1

/-- The speed of sample `i` (0 outside the table). -/
def sampleSpeed (i : Nat) : ℚ := ((speedRow i).getD (0, 0)).2

/-! ## Example configurations -/

/-- The distance of two coordinates. -/
def span (a b : ℚ) : ℚ := if a ≤ b then b - a else a - b

/-- An environment with one charging node at `(0, 0, 2)`, a consumption of 1 mAh per metre
along each axis, takeoff engines that climb to the commanded altitude and hold and charge engines
that end where the command points to. -/
def exampleEnv : Env where
  findNearestCN := fun _ _ _ => ⟨0, 0, 2⟩
  predictConsumption := fun e => span e.x0 e.x1 + span e.y0 e.y1 + span e.z0 e.z1
  deriveTarget := fun c x y z =>
    match c with
    | Command.Takeoff _ _ h => (x, y, h)
    | Command.Charge cn => (cn.x, cn.y, cn.z)
    | _ => (x, y, z)

/-- A node at `(0, 0, 2)` with the given queue, repeat flag and remaining charge
(capacity 1000 mAh). -/
def exampleNode (commands : List Command) ( commandsRepeat : Bool) (remaining : ℚ) : UAVNode :=
  ⟨0, 0, 2, commands, commandsRepeat, ⟨1000, remaining⟩, none⟩

/-- A node with 5 mAh left whose next waypoint is 50 m away, followed by a hold command. -/
def lowNode : UAVNode :=
  exampleNode [Command.Waypoint 50 0 2, Command.HoldPosition 50 0 2] false 5

/-- A node with an empty battery whose next waypoint is 50 m away. -/
def deadNode : UAVNode :=
  exampleNode [Command.Waypoint 50 0 2] false 0

/-- A node in repeat mode with 5 mAh left and a single waypoint 50 m away. -/
def weakNode : UAVNode :=
  exampleNode [Command.Waypoint 50 0 2] true 5

/-- A node in repeat mode with a full battery and a cyclic mission of three commands. -/
def freshNode : UAVNode :=
  exampleNode [Command.Waypoint 50 0 2, Command.HoldPosition 50 0 2, Command.Waypoint 0 0 2]
    true 1000

/-- The progress of `freshNode` before each of three selections: at the start, after the flight
to the first waypoint, after the hold. -/
def freshProgress : List Progress :=
  [⟨0, 0, 2, ⟨1000, 1000⟩⟩, ⟨50, 0, 2, ⟨1000, 940⟩⟩, ⟨50, 0, 2, ⟨1000, 930⟩⟩]

/-- The progress of `weakNode` before each of two selections: the first one detours, the second
one finds the synthesized charge command at the front. -/
def weakProgress : List Progress :=
  [⟨0, 0, 2, ⟨1000, 5⟩⟩, ⟨0, 0, 2, ⟨1000, 4⟩⟩]

/-! ## Current for a climb angle -/

/-- The random source behind `omnetpp::normal(network->getRNG(0), mean, stddev)`: `normal k`
is the value of the call made when `k` values have been drawn before. The number of values
drawn so far is the state of the source. -/
structure RandomSource where
  normal : Nat → ℚ → ℚ → ℚ

/-- The table `samples[11][3]` of `getCurrentFromAngle` (lines 248-260): climb angle in degrees,
mean and standard deviation of the current in A. -/
def currentSamples : List (ℚ × ℚ × ℚ) :=
  [ (-90.0, 16.86701, 0.7651131),
    (-75.6, 17.97695, 0.7196844),
    (-57.9, 17.34978, 0.6684724),
    (-34.8, 17.34384, 0.8729401),
    (-15.6, 15.99054, 1.1767867),
    (0.0, 16.36526, 1.0290515),
    (15.6, 18.83829, 2.1043467),
    (34.8, 20.34726, 1.4018145),
    (57.9, 21.31561, 0.8680334),
    (75.6, 21.43493, 0.7625244),
    (90.0, 20.86530, 0.7350855) ]

/-- The loop bound `sizeof(samples)` of line 266: the size in bytes of 11 rows of 3 `double`s
of 8 bytes. -/
def sizeofCurrentSamples : Nat := 11 * 3 * 8

/-- Row `idx` of the current table, `none` outside the table. -/
def currentRow (idx : Nat) : Option (ℚ × ℚ × ℚ) := currentSamples.get? idx

/-- The loop of lines 266-279, entered with the loop variable `idx` when `drawn` values have
been drawn from the random source. The result comes with the number of values drawn
afterwards. -/
def currentScan (rng : RandomSource) (drawn : Nat) (angle : ℚ) (idx : Nat) : Returned × Nat :=
  if idx < sizeofCurrentSamples then
    match currentRow (idx - 1) with
    | none => (Returned.outOfBounds (idx - 1), drawn)
    | some lo =>
      if lo.1 < angle then
        match currentRow idx with
        | none => (Returned.outOfBounds idx, drawn)
        | some hi =>
          if angle ≤ hi.1 then
            let mean_slope := (hi.2.1 - lo.2.1) / (hi.1 - lo.1)
            let mean := lo.2.1 + mean_slope * (angle - lo.1)
            let stddev_slope := (hi.2.2 - lo.2.2) / (hi.1 - lo.1)
            let stddev := lo.2.2 + stddev_slope * (angle - lo.1)
            let result := rng.normal drawn mean stddev
            (Returned.value result, drawn + 1)
          else currentScan rng drawn angle (idx + 1)
      else currentScan rng drawn angle (idx + 1)
  else (Returned.thrown "UAVNode::getCurrentFromAngle() unexpected angle passed", drawn)
termination_by sizeofCurrentSamples - idx

/-- `UAVNode::getCurrentFromAngle` (lines 246-287). -/
def getCurrentFromAngle (rng : RandomSource) (drawn : Nat) (angle : ℚ) : Returned × Nat :=
  match currentRow 0 with
  | none => (Returned.outOfBounds 0, drawn)
  | some first =>
    if angle = first.1 then (Returned.value first.2.1, drawn)
    else currentScan rng drawn angle 1

/-- The mean of sample `i` of the current table (0 outside the table). -/
def sampleMean (i : Nat) : ℚ := ((currentRow i).getD (0, 0, 0)).2.1

/-- The standard deviation of sample `i` of the current table (0 outside the table). -/
def sampleStddev (i : Nat) : ℚ := ((currentRow i).getD (0, 0, 0)).2.2

/-- The angle of sample `i` of the current table (0 outside the table). -/
def currentAngle (i : Nat) : ℚ := ((currentRow i).getD (0, 0, 0)).1

/-- The interpolation formula of lines 225-226, 268-269 and 271-272 between the sample points
`(x0, y0)` and `(x1, y1)`. -/
def interpolate (x0 y0 x1 y1 angle : ℚ) : ℚ :=
  y0 + (y1 - y0) / (x1 - x0) * (angle - x0)

/-- A random source whose draw lies one standard deviation above the mean. -/
def exampleRandom : RandomSource where
  normal := fun _ mean stddev => mean + stddev

/-! ## Feasibility forecast -/

/-- `Command::getX()`: the first coordinate a command carries (the charging node's for a
charge command). -/
def Command.getX : Command → ℚ
  | Command.Waypoint x _ _ => x
  | Command.Takeoff x _ _ => x
  | Command.HoldPosition x _ _ => x
  | Command.Charge cn => cn.x
  | Command.Unrecognized x _ _ => x

/-- `Command::getY()`. -/
def Command.getY : Command → ℚ
  | Command.Waypoint _ y _ => y
  | Command.Takeoff _ y _ => y
  | Command.HoldPosition _ y _ => y
  | Command.Charge cn => cn.y
  | Command.Unrecognized _ y _ => y

/-- `Command::getZ()`. -/
def Command.getZ : Command → ℚ
  | Command.Waypoint _ _ z => z
  | Command.Takeoff _ _ z => z
  | Command.HoldPosition _ _ z => z
  | Command.Charge cn => cn.z
  | Command.Unrecognized _ _ z => z

/-- `UAVNode::energyForCommand` (lines 344-368): the same chain of casts as in
`selectNextCommand`, the engine bound to the given origin, and its predicted consumption. -/
def energyForCommand (env : Env) (command : Command) (fromX fromY fromZ : ℚ) :
    Except String ℚ :=
  match scheduledFor command with
  | none => Except.error "UAVNode::energyForCommand(): invalid cast."
  | some scheduledCEE =>
    Except.ok (env.predictConsumption (bindCEE env scheduledCEE fromX fromY fromZ))

/-- The locals of `endOfOperation` that live across loop iterations (lines 300-305). The
counter `int commandsFeasible` is a natural number; `endOfOperationLoopF` follows it as a
32-bit `int`. -/
structure ForecastLocals where
  energySum : ℚ
  commandsFeasible : Nat
  fromX : ℚ
  fromY : ℚ
  fromZ : ℚ
deriving DecidableEq

/-- How a call of `endOfOperation` ends: the loop was left by `break` and the function
returned `result` (kept next to it: the final values of the locals `commandsFeasible` and
`energySum`), an exception was thrown, or `commandsFeasible % commands.size()` was evaluated
on an empty queue. -/
inductive Forecast where
  | finished (result : ℚ) (commandsFeasible : Nat) (energySum : ℚ)
  | thrown (msg : String)
  | moduloByZero
deriving DecidableEq

/-- The message of the throw of line 311. -/
def chargeEncountered : String := "endOfOperation(): charge command encountered"

/-- The loop `while (true)` of lines 307-339, run for at most `fuel` iterations; `none` when
the loop is still running after `fuel` iterations. -/
def endOfOperationLoop (env : Env) (s : UAVNode) : Nat → ForecastLocals → Option Forecast
  | 0, _ => none
  | fuel + 1, l =>
    if s.commands.length = 0 then some Forecast.moduloByZero
    else
      match s.commands.get? (l.commandsFeasible % s.commands.length) with
      | none => some (Forecast.thrown "deque::at: out of range")
      | some nextCommand =>
        if nextCommand.isCharge then some (Forecast.thrown chargeEncountered)
        else
          match energyForCommand env nextCommand l.fromX l.fromY l.fromZ with
          | Except.error msg => some (Forecast.thrown msg)
          | Except.ok energyForNextCommand =>
            let energyToCNAfter :=
              energyToNearestCN env nextCommand.getX nextCommand.getY nextCommand.getZ
            if s.battery.getRemaining < l.energySum + energyForNextCommand + energyToCNAfter then
              -- break; return 0
              some (Forecast.finished 0 l.commandsFeasible l.energySum)
            else
              endOfOperationLoop env s fuel
                ⟨l.energySum + energyForNextCommand, l.commandsFeasible + 1,
                  nextCommand.getX, nextCommand.getY, nextCommand.getZ⟩

/-- `UAVNode::endOfOperation` (lines 298-342) with at most `fuel` loop iterations: how the call
ends and the node state after it. The function writes to locals only. -/
def endOfOperation (env : Env) (s : UAVNode) (fuel : Nat) : Option Forecast × UAVNode :=
  (endOfOperationLoop env s fuel ⟨0, 0, s.x, s.y, s.z⟩, s)

/-! ### The walk in the words of the specification -/

/-- The message of the throw of line 361. -/
def invalidCast : String := "UAVNode::energyForCommand(): invalid cast."

/-- A node at `(0, 0, 2)` that shuttles between a waypoint 50 m away and the charging node's
position, with 120 mAh left. -/
def shuttleNode : UAVNode :=
  exampleNode [Command.Waypoint 50 0 2, Command.Waypoint 0 0 2] true 120

/-! ## The forecast with collaborators that hold the node -/

/-- The collaborators of the forecast as the source calls them: every engine is constructed on
`*this` (lines 349-358 and 375), so its constructor and its methods `initializeCEE` and
`predictConsumption` hold a reference to the node and may read and write it, and so may the
member function `findNearestCN`. Each operation takes the node state and returns the node state
it leaves. -/
structure Collaborators where
  construct : CeeType → Command → UAVNode → CommandExecEngine × UAVNode
  initializeCEE : CommandExecEngine → UAVNode → CommandExecEngine × UAVNode
  predictConsumption : CommandExecEngine → UAVNode → ℚ × UAVNode
  findNearestCN : ℚ → ℚ → ℚ → UAVNode → ChargingNode × UAVNode

/-- The collaborators given by an environment of oracles: none of them touches the node. -/
def Collaborators.ofEnv (env : Env) : Collaborators where
  construct := fun t cmd n => (newCEE t cmd, n)
  initializeCEE := fun e n => (e.initializeCEE env, n)
  predictConsumption := fun e n => (env.predictConsumption e, n)
  findNearestCN := fun x y z n => (env.findNearestCN x y z, n)

/-- `UAVNode::energyForCommand` (lines 344-368) with the node state threaded through the
constructor call, `initializeCEE` and `predictConsumption`. -/
def energyForCommandM (c : Collaborators) (command : Command) (fromX fromY fromZ : ℚ)
    (n : UAVNode) : Except String ℚ × UAVNode :=
  match scheduledFor command with
  | none => (Except.error invalidCast, n)
  | some cast =>
    let constructed := c.construct cast.ceeType command n
    let initialised :=
      c.initializeCEE (constructed.1.setFromCoordinates fromX fromY fromZ) constructed.2
    let predicted := c.predictConsumption initialised.1 initialised.2
    (Except.ok predicted.1, predicted.2)

/-- `UAVNode::energyToNearestCN` (lines 370-379) with the node state threaded through
`findNearestCN`, the constructor call, `initializeCEE` and `predictConsumption`. -/
def energyToNearestCNM (c : Collaborators) (fromX fromY fromZ : ℚ) (n : UAVNode) :
    ℚ × UAVNode :=
  let found := c.findNearestCN fromX fromY fromZ n
  let goToChargingNode := Command.Waypoint found.1.x found.1.y found.1.z
  let constructed := c.construct CeeType.WAYPOINT goToChargingNode found.2
  let initialised :=
    c.initializeCEE (constructed.1.setFromCoordinates fromX fromY fromZ) constructed.2
  c.predictConsumption initialised.1 initialised.2

/-- The loop of lines 307-339 with the node state threaded through every call: each iteration
reads `commands` and `battery` from the node as the calls before it have left it. -/
def endOfOperationLoopM (c : Collaborators) :
    Nat → ForecastLocals → UAVNode → Option Forecast × UAVNode
  | 0, _, n => (none, n)
  | fuel + 1, l, n =>
    if n.commands.length = 0 then (some Forecast.moduloByZero, n)
    else
      match n.commands.get? (l.commandsFeasible % n.commands.length) with
      | none => (some (Forecast.thrown "deque::at: out of range"), n)
      | some nextCommand =>
        if nextCommand.isCharge then (some (Forecast.thrown chargeEncountered), n)
        else
          let forCommand := energyForCommandM c nextCommand l.fromX l.fromY l.fromZ n
          match forCommand.1 with
          | Except.error msg => (some (Forecast.thrown msg), forCommand.2)
          | Except.ok energyForNextCommand =>
            let toCN :=
              energyToNearestCNM c nextCommand.getX nextCommand.getY nextCommand.getZ
                forCommand.2
            if toCN.2.battery.getRemaining < l.energySum + energyForNextCommand + toCN.1 then
              (some (Forecast.finished 0 l.commandsFeasible l.energySum), toCN.2)
            else
              endOfOperationLoopM c fuel
                ⟨l.energySum + energyForNextCommand, l.commandsFeasible + 1,
                  nextCommand.getX, nextCommand.getY, nextCommand.getZ⟩ toCN.2

/-- `UAVNode::endOfOperation` (lines 298-342) with the node state threaded through the calls:
how the call ends and the node state it leaves. -/
def endOfOperationM (c : Collaborators) (s : UAVNode) (fuel : Nat) : Option Forecast × UAVNode :=
  endOfOperationLoopM c fuel ⟨0, 0, s.x, s.y, s.z⟩ s

/-- Collaborators that break the frame condition: the prediction of a consumption takes 1 mAh
from the battery of the node. -/
def drainingCollaborators : Collaborators where
  construct := fun t cmd n => (newCEE t cmd, n)
  initializeCEE := fun e n => (e.initializeCEE exampleEnv, n)
  predictConsumption := fun e n =>
    (exampleEnv.predictConsumption e,
      { n with battery := ⟨n.battery.capacity, n.battery.remaining - 1⟩ })
  findNearestCN := fun x y z n => (exampleEnv.findNearestCN x y z, n)

/-! ## The forecast in machine arithmetic -/

theorem bindCEE_ceeType (env : Env) (e : CommandExecEngine) (x y z : ℚ) :
    (bindCEE env e x y z).ceeType = e.ceeType := by
  unfold bindCEE CommandExecEngine.initializeCEE CommandExecEngine.setFromCoordinates
  cases e.command <;> rfl

theorem scheduledFor_ceeType {c : Command} {cee : CommandExecEngine}
    (hc : scheduledFor c = some cee) : (cee.ceeType = CeeType.CHARGE ↔ c.isCharge = true) := by
  cases c <;> simp [scheduledFor, newCEE] at hc <;> subst hc <;> simp [Command.isCharge]

theorem scheduledFor_charge (cn : ChargingNode) :
    scheduledFor (Command.Charge cn) = some (newCEE CeeType.CHARGE (Command.Charge cn)) := rfl

theorem selectNextCommand_cons (env : Env) (s : UAVNode) {c : Command} {rest : List Command}
    {cee : CommandExecEngine} (hq : s.commands = c :: rest) (hc : scheduledFor c = some cee) :
    selectNextCommand env s =
      (Except.ok (elect env s c rest (bindCEE env cee s.x s.y s.z)).log,
        activate s (elect env s c rest (bindCEE env cee s.x s.y s.z)).commands
          (elect env s c rest (bindCEE env cee s.x s.y s.z)).scheduledCEE) := by
  simp only [selectNextCommand, hq, hc]

/-- The detour branch of `elect`. -/
theorem elect_detour (env : Env) (s : UAVNode) (c : Command) (rest : List Command)
    (e : CommandExecEngine) (hk : e.ceeType ≠ CeeType.CHARGE) (hne : s.battery.isEmpty = false)
    (hlt : energyRemaining s < energyForSheduled env e + energyToCNAfter env e) :
    elect env s c rest e =
      ⟨if energyRemaining s < energyToCN env s then EnergyLog.GoingToCNInsufficient
        else EnergyLog.GoingToCN,
        c :: Command.Charge (env.findNearestCN s.x s.y s.z) :: rest,
        goToChargingNodeCEE env s.x s.y s.z⟩ := by
  have h3 : ¬ (energyRemaining s ≥ energyForSheduled env e + energyToCNAfter env e) :=
    not_le.mpr hlt
  simp [elect, hk, hne, h3]

/-- The "enough energy" branch of `elect`. -/
theorem elect_enough (env : Env) (s : UAVNode) (c : Command) (rest : List Command)
    (e : CommandExecEngine) (hk : e.ceeType ≠ CeeType.CHARGE) (hne : s.battery.isEmpty = false)
    (hge : energyRemaining s ≥ energyForSheduled env e + energyToCNAfter env e) :
    elect env s c rest e = ⟨EnergyLog.EnoughEnergy, c :: rest, e⟩ := by
  simp [elect, hk, hne, hge]

/-- The empty-battery branch of `elect`. -/
theorem elect_died (env : Env) (s : UAVNode) (c : Command) (rest : List Command)
    (e : CommandExecEngine) (hk : e.ceeType ≠ CeeType.CHARGE) (he : s.battery.isEmpty = true) :
    elect env s c rest e = ⟨EnergyLog.JustDied, c :: rest, e⟩ := by
  simp [elect, hk, he]

/-- The charge branch of `elect`. -/
theorem elect_charge (env : Env) (s : UAVNode) (c : Command) (rest : List Command)
    (e : CommandExecEngine) (hk : e.ceeType = CeeType.CHARGE) :
    elect env s c rest e = ⟨EnergyLog.RechargingNow, c :: rest, e⟩ := by
  simp [elect, hk]

theorem activate_cons (s : UAVNode) (c : Command) (tail : List Command)
    (e : CommandExecEngine) :
    activate s (c :: tail) e =
      { s with
        commandExecEngine := some e,
        commands := if s.commandsRepeat && c.isReinjected then tail ++ [c] else tail } := by
  unfold activate Command.isReinjected
  cases hr : s.commandsRepeat <;> cases hc : c.isCharge <;> cases ht : c.isTakeoff <;>
    simp [hr, hc, ht]

theorem bound_not_charge (env : Env) (s : UAVNode) {c : Command} {cee : CommandExecEngine}
    (hc : scheduledFor c = some cee) (hnc : c.isCharge = false) :
    (bindCEE env cee s.x s.y s.z).ceeType ≠ CeeType.CHARGE := by
  rw [bindCEE_ceeType]
  intro h
  rw [(scheduledFor_ceeType hc).mp h] at hnc
  exact Bool.noConfusion hnc

theorem elect_shape (env : Env) (s : UAVNode) (c : Command) (rest : List Command)
    (e : CommandExecEngine) :
    ((elect env s c rest e).commands = c :: rest ∧ (elect env s c rest e).log.isDetour = false)
      ∨ ((elect env s c rest e).commands
            = c :: Command.Charge (env.findNearestCN s.x s.y s.z) :: rest
          ∧ (elect env s c rest e).log.isDetour = true) := by
  unfold elect
  split_ifs <;> simp [EnergyLog.isDetour]

theorem isReinjected_iff (c : Command) :
    c.isReinjected = true ↔ (c.isCharge = false ∧ c.isTakeoff = false) := by
  unfold Command.isReinjected
  cases c.isCharge <;> cases c.isTakeoff <;> simp

theorem activate_commandsRepeat (s : UAVNode) (cs : List Command) (e : CommandExecEngine) :
    (activate s cs e).commandsRepeat = s.commandsRepeat := by
  unfold activate
  split
  · rfl
  · split <;> rfl

theorem selectNextCommand_commandsRepeat (env : Env) (s : UAVNode) :
    (selectNextCommand env s).2.commandsRepeat = s.commandsRepeat := by
  unfold selectNextCommand
  split
  · rfl
  · split
    · rfl
    · exact activate_commandsRepeat _ _ _

/-- One selection that succeeds without a detour, on a queue of re-appended commands in repeat
mode, rotates the queue left by one. -/
theorem select_rotates (env : Env) (s : UAVNode) (hrep : s.commandsRepeat = true)
    (hkind : ∀ c ∈ s.commands, c.isReinjected = true)
    (hok : (match (selectNextCommand env s).1 with
      | Except.ok l => !l.isDetour
      | Except.error _ => false) = true) :
    (selectNextCommand env s).2.commands = s.commands.rotate 1 := by
  cases hq : s.commands with
  | nil => simp [selectNextCommand, hq] at hok
  | cons c rest =>
    cases hc : scheduledFor c with
    | none => simp [selectNextCommand, hq, hc] at hok
    | some cee =>
      rw [selectNextCommand_cons env s hq hc] at hok ⊢
      have hcr : c.isReinjected = true := hkind c (by simp [hq])
      rcases elect_shape env s c rest (bindCEE env cee s.x s.y s.z) with ⟨h1, _⟩ | ⟨_, h2⟩
      · rw [h1, activate_cons]
        simp [hrep, hcr, List.rotate_cons_succ]
      · simp [h2] at hok

/-- The queue after a sequence of selections without detour is the original one rotated left
by the number of selections. -/
theorem selections_rotate (env : Env) (ps : List Progress) :
    ∀ s : UAVNode, s.commandsRepeat = true → (∀ c ∈ s.commands, c.isReinjected = true) →
      noDetours env ps s = true →
      (selections env ps s).commands = s.commands.rotate ps.length := by
  induction ps with
  | nil => intro s _ _ _; simp [selections]
  | cons p ps ih =>
    intro s hrep hkind hno
    simp only [noDetours, Bool.and_eq_true] at hno
    have hstep : (selectNextCommand env (s.advance p)).2.commands = s.commands.rotate 1 :=
      select_rotates env (s.advance p) hrep hkind hno.1
    have hrep1 : (selectNextCommand env (s.advance p)).2.commandsRepeat = true := by
      rw [selectNextCommand_commandsRepeat]; exact hrep
    have hkind1 : ∀ c ∈ (selectNextCommand env (s.advance p)).2.commands,
        c.isReinjected = true := by
      intro c hcmem
      rw [hstep, List.mem_rotate] at hcmem
      exact hkind c hcmem
    have := ih _ hrep1 hkind1 hno.2
    simp only [selections, this, hstep, List.rotate_rotate, List.length_cons,
      Nat.add_comm 1 ps.length]

theorem noDetours_take (env : Env) (ps : List Progress) :
    ∀ (k : Nat) (s : UAVNode), noDetours env ps s = true →
      noDetours env (ps.take k) s = true := by
  induction ps with
  | nil => intro k s _; simp [noDetours]
  | cons p ps ih =>
    intro k s hno
    cases k with
    | zero => simp [noDetours]
    | succ k =>
      simp only [noDetours, Bool.and_eq_true, List.take_succ_cons] at hno ⊢
      exact ⟨hno.1, ih k _ hno.2⟩

/-- One selection in repeat mode keeps the repeat flag and keeps the re-appended commands of the
queue up to rotation. -/
theorem select_keeps_reinjected (env : Env) (s : UAVNode) (hrep : s.commandsRepeat = true) :
    List.IsRotated ((selectNextCommand env s).2.commands.filter Command.isReinjected)
      (s.commands.filter Command.isReinjected) := by
  cases hq : s.commands with
  | nil => simp [selectNextCommand, hq]
  | cons c rest =>
    cases hc : scheduledFor c with
    | none => simp [selectNextCommand, hq, hc, List.IsRotated.refl]
    | some cee =>
      rw [selectNextCommand_cons env s hq hc]
      have hch : (Command.Charge (env.findNearestCN s.x s.y s.z)).isReinjected = false := rfl
      rcases elect_shape env s c rest (bindCEE env cee s.x s.y s.z) with ⟨h1, _⟩ | ⟨h1, _⟩ <;>
        rw [h1, activate_cons] <;>
        cases hcr : c.isReinjected <;>
        simp [hrep, hcr, hch, List.filter_cons, List.isRotated_concat, List.IsRotated.refl]

/-- The re-appended commands of the queue are kept up to rotation along any sequence of
selections in repeat mode. -/
theorem selections_keep_reinjected (env : Env) (ps : List Progress) :
    ∀ s : UAVNode, s.commandsRepeat = true →
      List.IsRotated ((selections env ps s).commands.filter Command.isReinjected)
        (s.commands.filter Command.isReinjected) := by
  induction ps with
  | nil => intro s _; exact List.IsRotated.refl _
  | cons p ps ih =>
    intro s hrep
    have hrep1 : (selectNextCommand env (s.advance p)).2.commandsRepeat = true := by
      rw [selectNextCommand_commandsRepeat]; exact hrep
    exact (ih _ hrep1).trans (select_keeps_reinjected env (s.advance p) hrep)

/-! ## Claims about `selectNextCommand` -/

/-- C3 (counterexample). With 5 mAh remaining, 50 mAh predicted for the waypoint at the front
and 50 mAh from its target to the charging node, `selectNextCommand` does not take the
empty-battery branch: the log line is "Going to Charging Node", the active engine is the
waypoint engine to the charging node and not the engine of the front command, and a charge
command has been put into the queue. -/
theorem low_battery_scenario_counterexample :
    weakNode.battery.getRemaining = 5
      ∧ weakNode.commands = [Command.Waypoint 50 0 2]
      ∧ energyForSheduled exampleEnv
          (bindCEE exampleEnv (newCEE CeeType.WAYPOINT (Command.Waypoint 50 0 2))
            weakNode.x weakNode.y weakNode.z) = 50
      ∧ (selectNextCommand exampleEnv weakNode).1 = Except.ok EnergyLog.GoingToCN
      ∧ (selectNextCommand exampleEnv weakNode).1 ≠ Except.ok EnergyLog.JustDied
      ∧ (selectNextCommand exampleEnv weakNode).2.commandExecEngine
          ≠ some (bindCEE exampleEnv (newCEE CeeType.WAYPOINT (Command.Waypoint 50 0 2))
              weakNode.x weakNode.y weakNode.z)
      ∧ (selectNextCommand exampleEnv weakNode).2.commands
          = [Command.Charge ⟨0, 0, 2⟩, Command.Waypoint 50 0 2] := by
  refine ⟨rfl, rfl, ?_, ?_, ?_, ?_, ?_⟩
  all_goals
    simp [selectNextCommand, scheduledFor, elect, activate, weakNode, exampleNode,
      exampleEnv, span, bindCEE, newCEE, CommandExecEngine.setFromCoordinates,
      CommandExecEngine.initializeCEE, energyRemaining, energyForSheduled, energyToCNAfter,
      energyToCN, energyToNearestCN, goToChargingNodeCEE, Battery.getRemaining, Battery.isEmpty,
      Command.isCharge, Command.isTakeoff]
  all_goals norm_num
  all_goals decide

/-- C3 (amended). With 5 mAh remaining the battery is not empty; with 50 mAh predicted for the
waypoint at the front and a non-negative prediction from its target to the charging node,
`selectNextCommand` takes the detour branch: it succeeds with one of the two "Going to Charging
Node" lines (never the line of the empty-battery branch), activates the waypoint engine to the
nearest charging node and leaves the synthesized charge command at the front of the queue. -/
theorem low_battery_scenario_detours (env : Env) (s : UAVNode) (x y z : ℚ)
    (rest : List Command)
    (hq : s.commands = Command.Waypoint x y z :: rest)
    (hrem : s.battery.getRemaining = 5)
    (hsched : energyForSheduled env
      (bindCEE env (newCEE CeeType.WAYPOINT (Command.Waypoint x y z)) s.x s.y s.z) = 50)
    (hafter : 0 ≤ energyToCNAfter env
      (bindCEE env (newCEE CeeType.WAYPOINT (Command.Waypoint x y z)) s.x s.y s.z)) :
    s.battery.isEmpty = false
      ∧ (∃ l, (selectNextCommand env s).1 = Except.ok l ∧ l.isDetour = true
          ∧ l ≠ EnergyLog.JustDied)
      ∧ (selectNextCommand env s).2.commandExecEngine
          = some (goToChargingNodeCEE env s.x s.y s.z)
      ∧ (selectNextCommand env s).2.commands.head?
          = some (Command.Charge (env.findNearestCN s.x s.y s.z)) := by
  have hne : s.battery.isEmpty = false := by
    have h5 : s.battery.remaining = 5 := hrem
    simp [Battery.isEmpty, h5]
  have hlt : energyRemaining s
      < energyForSheduled env
          (bindCEE env (newCEE CeeType.WAYPOINT (Command.Waypoint x y z)) s.x s.y s.z)
        + energyToCNAfter env
          (bindCEE env (newCEE CeeType.WAYPOINT (Command.Waypoint x y z)) s.x s.y s.z) := by
    have h5 : energyRemaining s = 5 := hrem
    rw [h5, hsched]
    linarith
  have hc : scheduledFor (Command.Waypoint x y z)
      = some (newCEE CeeType.WAYPOINT (Command.Waypoint x y z)) := rfl
  refine ⟨hne, ?_, ?_, ?_⟩
  · rw [selectNextCommand_cons env s hq hc,
      elect_detour env s _ rest _ (bound_not_charge env s hc rfl) hne hlt]
    by_cases h : energyRemaining s < energyToCN env s
    · exact ⟨EnergyLog.GoingToCNInsufficient, by simp [h], rfl, by decide⟩
    · exact ⟨EnergyLog.GoingToCN, by simp [h], rfl, by decide⟩
  · rw [selectNextCommand_cons env s hq hc,
      elect_detour env s _ rest _ (bound_not_charge env s hc rfl) hne hlt]
    simp only [activate_cons]
  · rw [selectNextCommand_cons env s hq hc,
      elect_detour env s _ rest _ (bound_not_charge env s hc rfl) hne hlt]
    simp only [activate_cons]
    split <;> rfl

/-- Witness of `low_battery_scenario_detours` at `lowNode`. -/
theorem low_battery_scenario_detours_witness :
    lowNode.battery.isEmpty = false
      ∧ (∃ l, (selectNextCommand exampleEnv lowNode).1 = Except.ok l ∧ l.isDetour = true
          ∧ l ≠ EnergyLog.JustDied)
      ∧ (selectNextCommand exampleEnv lowNode).2.commandExecEngine
          = some (goToChargingNodeCEE exampleEnv lowNode.x lowNode.y lowNode.z)
      ∧ (selectNextCommand exampleEnv lowNode).2.commands.head?
          = some (Command.Charge (exampleEnv.findNearestCN lowNode.x lowNode.y lowNode.z)) :=
  low_battery_scenario_detours exampleEnv lowNode 50 0 2 [Command.HoldPosition 50 0 2]
    rfl rfl
    (by norm_num [lowNode, exampleNode, exampleEnv, span, bindCEE, newCEE,
      CommandExecEngine.setFromCoordinates, CommandExecEngine.initializeCEE,
      energyForSheduled])
    (by norm_num [lowNode, exampleNode, exampleEnv, span, bindCEE, newCEE,
      CommandExecEngine.setFromCoordinates, CommandExecEngine.initializeCEE,
      energyToCNAfter, energyToNearestCN, goToChargingNodeCEE])

/-- C4. When the queue is `c :: rest`, `c` is not a charge command, the battery is not empty
and `energyRemaining >= energyForSheduled + energyToCNAfter` (equality included),
`selectNextCommand` succeeds with the line "OK. UAV has enough energy to continue", makes the
engine built from `c` and bound to the current pose the active one, changes nothing else but the
queue, and the queue becomes `rest ++ [c]` in repeat mode when `c` is not a takeoff command and
`rest` otherwise; no command is synthesized. -/
theorem proceed_as_planned (env : Env) (s : UAVNode) (c : Command) (rest : List Command)
    (cee : CommandExecEngine)
    (hq : s.commands = c :: rest) (hc : scheduledFor c = some cee)
    (hnc : c.isCharge = false) (hne : s.battery.isEmpty = false)
    (hge : energyRemaining s
      ≥ energyForSheduled env (bindCEE env cee s.x s.y s.z)
        + energyToCNAfter env (bindCEE env cee s.x s.y s.z)) :
    selectNextCommand env s =
      (Except.ok EnergyLog.EnoughEnergy,
        { s with
          commandExecEngine := some (bindCEE env cee s.x s.y s.z),
          commands := if s.commandsRepeat && !c.isTakeoff then rest ++ [c] else rest }) := by
  rw [selectNextCommand_cons env s hq hc,
    elect_enough env s c rest _ (bound_not_charge env s hc hnc) hne hge]
  simp only [activate_cons, Command.isReinjected, hnc, Bool.not_false, Bool.true_and]

/-- Witness of `proceed_as_planned` at `freshNode`, and at a node whose remaining charge is
exactly the sum of the two predictions. -/
theorem proceed_as_planned_witness :
    selectNextCommand exampleEnv freshNode =
        (Except.ok EnergyLog.EnoughEnergy,
          { freshNode with
            commandExecEngine :=
              some (bindCEE exampleEnv (newCEE CeeType.WAYPOINT (Command.Waypoint 50 0 2))
                freshNode.x freshNode.y freshNode.z),
            commands :=
              if freshNode.commandsRepeat && !(Command.Waypoint 50 0 2).isTakeoff
              then [Command.HoldPosition 50 0 2, Command.Waypoint 0 0 2]
                ++ [Command.Waypoint 50 0 2]
              else [Command.HoldPosition 50 0 2, Command.Waypoint 0 0 2] })
      ∧ (selectNextCommand exampleEnv (exampleNode [Command.Waypoint 50 0 2] false 100)).2.commands
          = [] :=
  ⟨proceed_as_planned exampleEnv freshNode (Command.Waypoint 50 0 2)
      [Command.HoldPosition 50 0 2, Command.Waypoint 0 0 2]
      (newCEE CeeType.WAYPOINT (Command.Waypoint 50 0 2)) rfl rfl rfl
      (by norm_num [freshNode, exampleNode, Battery.isEmpty])
      (by norm_num [freshNode, exampleNode, exampleEnv, span, bindCEE, newCEE,
        CommandExecEngine.setFromCoordinates, CommandExecEngine.initializeCEE, energyRemaining,
        energyForSheduled, energyToCNAfter, energyToNearestCN, goToChargingNodeCEE,
        Battery.getRemaining]),
    congrArg (fun r => r.2.commands)
      (proceed_as_planned exampleEnv (exampleNode [Command.Waypoint 50 0 2] false 100)
        (Command.Waypoint 50 0 2) [] (newCEE CeeType.WAYPOINT (Command.Waypoint 50 0 2))
        rfl rfl rfl
        (by norm_num [exampleNode, Battery.isEmpty])
        (by norm_num [exampleNode, exampleEnv, span, bindCEE, newCEE,
          CommandExecEngine.setFromCoordinates, CommandExecEngine.initializeCEE,
          energyRemaining, energyForSheduled, energyToCNAfter, energyToNearestCN,
          goToChargingNodeCEE, Battery.getRemaining]))⟩

/-- C5. When the front of the queue is a charge command, `selectNextCommand` succeeds with the
line "Recharging now." and activates the charge engine of that command, whatever the battery and
the predicted energies are; the queue loses its front and nothing is re-appended, in repeat mode
too; no command is synthesized. -/
theorem charge_has_priority (env : Env) (s : UAVNode) (cn : ChargingNode)
    (rest : List Command) (hq : s.commands = Command.Charge cn :: rest) :
    selectNextCommand env s =
      (Except.ok EnergyLog.RechargingNow,
        { s with
          commandExecEngine :=
            some (bindCEE env (newCEE CeeType.CHARGE (Command.Charge cn)) s.x s.y s.z),
          commands := rest }) := by
  rw [selectNextCommand_cons env s hq (scheduledFor_charge cn),
    elect_charge env s _ rest _ (by rw [bindCEE_ceeType]; rfl)]
  simp [activate_cons, Command.isReinjected, Command.isCharge]

/-- Witness of `charge_has_priority`: repeat mode, empty battery, charge command at the
front. -/
theorem charge_has_priority_witness :
    selectNextCommand exampleEnv
        (exampleNode [Command.Charge ⟨0, 0, 2⟩, Command.Waypoint 50 0 2] true 0) =
      (Except.ok EnergyLog.RechargingNow,
        { exampleNode [Command.Charge ⟨0, 0, 2⟩, Command.Waypoint 50 0 2] true 0 with
          commandExecEngine :=
            some (bindCEE exampleEnv (newCEE CeeType.CHARGE (Command.Charge ⟨0, 0, 2⟩))
              (exampleNode [Command.Charge ⟨0, 0, 2⟩, Command.Waypoint 50 0 2] true 0).x
              (exampleNode [Command.Charge ⟨0, 0, 2⟩, Command.Waypoint 50 0 2] true 0).y
              (exampleNode [Command.Charge ⟨0, 0, 2⟩, Command.Waypoint 50 0 2] true 0).z),
          commands := [Command.Waypoint 50 0 2] }) :=
  charge_has_priority exampleEnv
    (exampleNode [Command.Charge ⟨0, 0, 2⟩, Command.Waypoint 50 0 2] true 0) ⟨0, 0, 2⟩
    [Command.Waypoint 50 0 2] rfl

/-- C6. When the front command `c` is not a charge command and `battery.isEmpty()` holds,
`selectNextCommand` does not throw: it succeeds with the error-level line "One of our precious
UAVs just died", makes the engine of `c` itself the active one and performs no detour, whatever
the predicted energies are: the queue is `rest` or `rest ++ [c]`, no charge or waypoint command
is created. -/
theorem stranded_but_continuing (env : Env) (s : UAVNode) (c : Command) (rest : List Command)
    (cee : CommandExecEngine)
    (hq : s.commands = c :: rest) (hc : scheduledFor c = some cee)
    (hnc : c.isCharge = false) (he : s.battery.isEmpty = true) :
    selectNextCommand env s =
        (Except.ok EnergyLog.JustDied,
          { s with
            commandExecEngine := some (bindCEE env cee s.x s.y s.z),
            commands := if s.commandsRepeat && !c.isTakeoff then rest ++ [c] else rest })
      ∧ EnergyLog.JustDied.level = LogLevel.ERROR
      ∧ EnergyLog.JustDied.isDetour = false := by
  rw [selectNextCommand_cons env s hq hc,
    elect_died env s c rest _ (bound_not_charge env s hc hnc) he]
  refine ⟨?_, rfl, rfl⟩
  simp only [activate_cons, Command.isReinjected, hnc, Bool.not_false, Bool.true_and]

/-- Witness of `stranded_but_continuing` at `deadNode`. -/
theorem stranded_but_continuing_witness :
    selectNextCommand exampleEnv deadNode =
        (Except.ok EnergyLog.JustDied,
          { deadNode with
            commandExecEngine :=
              some (bindCEE exampleEnv (newCEE CeeType.WAYPOINT (Command.Waypoint 50 0 2))
                deadNode.x deadNode.y deadNode.z),
            commands :=
              if deadNode.commandsRepeat && !(Command.Waypoint 50 0 2).isTakeoff
              then [] ++ [Command.Waypoint 50 0 2] else [] })
      ∧ EnergyLog.JustDied.level = LogLevel.ERROR
      ∧ EnergyLog.JustDied.isDetour = false :=
  stranded_but_continuing exampleEnv deadNode (Command.Waypoint 50 0 2) []
    (newCEE CeeType.WAYPOINT (Command.Waypoint 50 0 2)) rfl rfl rfl
    (by norm_num [deadNode, exampleNode, Battery.isEmpty])

/-- C7. `selectNextCommand` throws exactly when the queue is empty or no cast of the front
command succeeds; when it throws, the node state (queue, active engine, battery, pose) is
the state on entry; and on a non-empty queue whose commands are all of a recognized kind it
succeeds. -/
theorem selectNextCommand_fails_iff (env : Env) (s : UAVNode) :
    ((∃ msg, (selectNextCommand env s).1 = Except.error msg)
        ↔ (s.commands = [] ∨ ∃ c rest, s.commands = c :: rest ∧ scheduledFor c = none))
      ∧ ((∃ msg, (selectNextCommand env s).1 = Except.error msg)
          → (selectNextCommand env s).2 = s)
      ∧ (s.commands ≠ [] → (∀ c ∈ s.commands, scheduledFor c ≠ none)
          → ∃ l, (selectNextCommand env s).1 = Except.ok l) := by
  cases hq : s.commands with
  | nil => simp [selectNextCommand, hq]
  | cons c rest =>
    cases hc : scheduledFor c with
    | none => simp [selectNextCommand, hq, hc]
    | some cee =>
      rw [selectNextCommand_cons env s hq hc]
      simp [hc]

/-- C8. In repeat mode, on a queue of `N` commands none of which is a charge or a takeoff
command, when `N` consecutive selections (each after some progress of the active engine) all
succeed without taking the detour branch, the queue after the `N`-th selection is the original
queue; after `k <= N` of them it is the original queue rotated left by `k`, so each selection
rotates the queue left by one. -/
theorem repeat_mode_rotation (env : Env) (ps : List Progress) (s : UAVNode)
    (hrep : s.commandsRepeat = true)
    (hkind : ∀ c ∈ s.commands, c.isCharge = false ∧ c.isTakeoff = false)
    (hlen : ps.length = s.commands.length)
    (hno : noDetours env ps s = true) :
    (selections env ps s).commands = s.commands
      ∧ ∀ k, k ≤ s.commands.length →
          (selections env (ps.take k) s).commands = s.commands.rotate k := by
  have hkind1 : ∀ c ∈ s.commands, c.isReinjected = true :=
    fun c hc => (isReinjected_iff c).mpr (hkind c hc)
  constructor
  · rw [selections_rotate env ps s hrep hkind1 hno, hlen, List.rotate_length]
  · intro k hk
    rw [selections_rotate env (ps.take k) s hrep hkind1 (noDetours_take env ps k s hno)]
    simp [List.length_take, hlen, hk]

/-- Witness of `repeat_mode_rotation`: three selections on the three commands of
`freshNode`. -/
theorem repeat_mode_rotation_witness :
    freshNode.commandsRepeat = true
      ∧ freshProgress.length = freshNode.commands.length
      ∧ noDetours exampleEnv freshProgress freshNode = true
      ∧ (selections exampleEnv freshProgress freshNode).commands = freshNode.commands :=
  have hno : noDetours exampleEnv freshProgress freshNode = true := by decide!
  ⟨rfl, rfl, hno,
    (repeat_mode_rotation exampleEnv freshProgress freshNode rfl
      (by simp [freshNode, exampleNode, Command.isCharge, Command.isTakeoff]) rfl hno).1⟩

/-- C9. In repeat mode, starting from a queue with at least one command that is neither a
charge nor a takeoff command, the queue is not empty after any sequence of selections (whatever
branch each one takes, failing calls included), and its subsequence of commands that are neither
charge nor takeoff commands is a rotation of the original one. -/
theorem queue_never_empties (env : Env) (ps : List Progress) (s : UAVNode)
    (hrep : s.commandsRepeat = true)
    (hex : ∃ c ∈ s.commands, c.isCharge = false ∧ c.isTakeoff = false) :
    (selections env ps s).commands ≠ []
      ∧ List.IsRotated ((selections env ps s).commands.filter Command.isReinjected)
          (s.commands.filter Command.isReinjected) := by
  have hrot := selections_keep_reinjected env ps s hrep
  refine ⟨?_, hrot⟩
  obtain ⟨c, hc, hk⟩ := hex
  have hmem : c ∈ s.commands.filter Command.isReinjected :=
    List.mem_filter.mpr ⟨hc, (isReinjected_iff c).mpr hk⟩
  have hmem1 := (hrot.mem_iff).mpr hmem
  intro hnil
  rw [hnil] at hmem1
  simp at hmem1

/-- Witness of `queue_never_empties`: `weakNode` detours, then recharges. -/
theorem queue_never_empties_witness :
    weakNode.commandsRepeat = true
      ∧ (Command.Waypoint 50 0 2 ∈ weakNode.commands
          ∧ (Command.Waypoint 50 0 2).isCharge = false
          ∧ (Command.Waypoint 50 0 2).isTakeoff = false)
      ∧ (selections exampleEnv weakProgress weakNode).commands ≠ []
      ∧ List.IsRotated
          ((selections exampleEnv weakProgress weakNode).commands.filter Command.isReinjected)
          (weakNode.commands.filter Command.isReinjected) :=
  ⟨rfl, ⟨by simp [weakNode, exampleNode], rfl, rfl⟩,
    queue_never_empties exampleEnv weakProgress weakNode rfl
      ⟨Command.Waypoint 50 0 2, by simp [weakNode, exampleNode], rfl, rfl⟩⟩

/-! ## Claims about `getSpeedFromAngle` -/

theorem speedSamples_length : speedSamples.length = 11 := rfl

theorem speedRow_eq (k : Nat) (hk : k ≤ 10) :
    speedRow k = some (sampleAngle k, sampleSpeed k) := by
  have hlt : k < speedSamples.length := by rw [speedSamples_length]; omega
  simp only [sampleAngle, sampleSpeed, speedRow, List.get?_eq_getElem?,
    List.getElem?_eq_getElem hlt, Option.getD_some]

theorem sampleAngle_step (k : Nat) (hk : k < 10) : sampleAngle k < sampleAngle (k + 1) := by
  interval_cases k <;> norm_num [sampleAngle, speedRow, speedSamples]

theorem sampleAngle_mono {i j : Nat} (hij : i ≤ j) (hj : j ≤ 10) :
    sampleAngle i ≤ sampleAngle j := by
  induction j with
  | zero =>
    have : i = 0 := by omega
    rw [this]
  | succ j ih =>
    rcases Nat.lt_or_ge i (j + 1) with h | h
    · exact le_trans (ih (by omega) (by omega)) (le_of_lt (sampleAngle_step j (by omega)))
    · have : i = j + 1 := by omega
      rw [this]

theorem sampleAngle_zero : sampleAngle 0 = -90 := by
  norm_num [sampleAngle, speedRow, speedSamples]

theorem sampleAngle_ten : sampleAngle 10 = 90 := by
  norm_num [sampleAngle, speedRow, speedSamples]

/-- The value of lines 225-226 for the bracket `(i - 1, i)`. -/
theorem speedScan_hit (angle : ℚ) (i : Nat) (hi1 : 1 ≤ i) (hi : i ≤ 10)
    (hlo : sampleAngle (i - 1) < angle) (hhi : angle ≤ sampleAngle i) :
    ∀ d idx, idx + d = i → 1 ≤ idx →
      speedScan angle idx =
        Returned.value (sampleSpeed (i - 1)
          + (sampleSpeed i - sampleSpeed (i - 1)) / (sampleAngle i - sampleAngle (i - 1))
            * (angle - sampleAngle (i - 1))) := by
  intro d
  induction d with
  | zero =>
    intro idx hidx _
    have hidx : idx = i := by omega
    subst hidx
    rw [speedScan]
    have hb : idx < sizeofSpeedSamples := by unfold sizeofSpeedSamples; omega
    simp [hb, speedRow_eq (idx - 1) (by omega), speedRow_eq idx hi, hlo, hhi]
  | succ d ih =>
    intro idx hidx h1
    rw [speedScan]
    have hb : idx < sizeofSpeedSamples := by unfold sizeofSpeedSamples; omega
    have hnot : ¬ angle ≤ sampleAngle idx :=
      not_le.mpr (lt_of_le_of_lt (sampleAngle_mono (by omega) (by omega)) hlo)
    have hrec := ih (idx + 1) (by omega) (by omega)
    simp only [hb, if_true, speedRow_eq (idx - 1) (by omega), speedRow_eq idx (by omega),
      hnot, if_false, hrec]
    split <;> rfl

/-- C10. For every angle with `-90 < angle <= 90` there is exactly one index `i` in `1..10`
with `x[i-1] < angle <= x[i]`, and `getSpeedFromAngle(angle)` returns, without throwing and
without reading a row outside the 11-row table, the value
`y[i-1] + (y[i] - y[i-1]) / (x[i] - x[i-1]) * (angle - x[i-1])`, although the loop is bounded
by `sizeof(samples)`. -/
theorem getSpeedFromAngle_interpolates (angle : ℚ) (hlo : -90 < angle) (hhi : angle ≤ 90) :
    ∃ i, 1 ≤ i ∧ i ≤ 10 ∧ sampleAngle (i - 1) < angle ∧ angle ≤ sampleAngle i
      ∧ (∀ j, 1 ≤ j → j ≤ 10 → sampleAngle (j - 1) < angle → angle ≤ sampleAngle j → j = i)
      ∧ getSpeedFromAngle angle =
          Returned.value (sampleSpeed (i - 1)
            + (sampleSpeed i - sampleSpeed (i - 1)) / (sampleAngle i - sampleAngle (i - 1))
              * (angle - sampleAngle (i - 1)))
      ∧ (∀ r, getSpeedFromAngle angle ≠ Returned.outOfBounds r)
      ∧ (∀ msg, getSpeedFromAngle angle ≠ Returned.thrown msg) := by
  have hex : ∃ i, angle ≤ sampleAngle i := ⟨10, by rw [sampleAngle_ten]; exact hhi⟩
  have hspec : angle ≤ sampleAngle (Nat.find hex) := Nat.find_spec hex
  have hle : Nat.find hex ≤ 10 := Nat.find_min' hex (by rw [sampleAngle_ten]; exact hhi)
  have hpos : 1 ≤ Nat.find hex := by
    rcases Nat.eq_zero_or_pos (Nat.find hex) with h0 | h0
    · rw [h0, sampleAngle_zero] at hspec
      exact absurd hspec (not_le.mpr hlo)
    · exact h0
  have hprev : sampleAngle (Nat.find hex - 1) < angle :=
    not_le.mp (Nat.find_min hex (by omega))
  have hval := speedScan_hit angle (Nat.find hex) hpos hle hprev hspec (Nat.find hex - 1) 1
    (by omega) (le_refl 1)
  have hget : getSpeedFromAngle angle = speedScan angle 1 := by
    have hne : ¬ angle = -90 := ne_of_gt hlo
    simp [getSpeedFromAngle, speedRow_eq 0 (by omega), sampleAngle_zero, hne]
  refine ⟨Nat.find hex, hpos, hle, hprev, hspec, ?_, ?_, ?_, ?_⟩
  · intro j hj1 hj10 hjlo hjhi
    rcases Nat.lt_trichotomy j (Nat.find hex) with h | h | h
    · exact absurd (lt_of_le_of_lt (le_trans hjhi (sampleAngle_mono (by omega) (by omega))) hprev)
        (lt_irrefl _)
    · exact h
    · exact absurd (lt_of_le_of_lt (le_trans hspec (sampleAngle_mono (by omega) (by omega))) hjlo)
        (lt_irrefl _)
  · rw [hget, hval]
  · intro r; rw [hget, hval]; exact Returned.noConfusion
  · intro msg; rw [hget, hval]; exact Returned.noConfusion

/-- Witness of `getSpeedFromAngle_interpolates` at a climb angle of 45 degrees. -/
theorem getSpeedFromAngle_interpolates_witness :
    (-90 : ℚ) < 45 ∧ (45 : ℚ) ≤ 90
      ∧ ∃ i, 1 ≤ i ∧ i ≤ 10 ∧ sampleAngle (i - 1) < 45 ∧ 45 ≤ sampleAngle i
        ∧ (∀ j, 1 ≤ j → j ≤ 10 → sampleAngle (j - 1) < 45 → 45 ≤ sampleAngle j → j = i)
        ∧ getSpeedFromAngle 45 =
            Returned.value (sampleSpeed (i - 1)
              + (sampleSpeed i - sampleSpeed (i - 1)) / (sampleAngle i - sampleAngle (i - 1))
                * (45 - sampleAngle (i - 1)))
        ∧ (∀ r, getSpeedFromAngle 45 ≠ Returned.outOfBounds r)
        ∧ (∀ msg, getSpeedFromAngle 45 ≠ Returned.thrown msg) :=
  ⟨by norm_num, by norm_num, getSpeedFromAngle_interpolates 45 (by norm_num) (by norm_num)⟩

/-! ## Auxiliary facts about the two tables -/

theorem currentSamples_length : currentSamples.length = 11 := rfl

theorem currentRow_eq (k : Nat) (hk : k ≤ 10) :
    currentRow k = some (currentAngle k, sampleMean k, sampleStddev k) := by
  have hlt : k < currentSamples.length := by rw [currentSamples_length]; omega
  simp only [currentAngle, sampleMean, sampleStddev, currentRow, List.get?_eq_getElem?,
    List.getElem?_eq_getElem hlt, Option.getD_some]

theorem currentAngle_eq (k : Nat) (hk : k ≤ 10) : currentAngle k = sampleAngle k := by
  interval_cases k <;>
    norm_num [currentAngle, currentRow, currentSamples, sampleAngle, speedRow, speedSamples]

theorem speedRow_eleven : speedRow 11 = none := rfl

theorem currentRow_eleven : currentRow 11 = none := rfl

theorem sampleAngle_ge (k : Nat) (hk : k ≤ 10) : -90 ≤ sampleAngle k := by
  rw [← sampleAngle_zero]; exact sampleAngle_mono (Nat.zero_le k) hk

theorem sampleAngle_le (k : Nat) (hk : k ≤ 10) : sampleAngle k ≤ 90 := by
  rw [← sampleAngle_ten]; exact sampleAngle_mono hk (le_refl 10)

/-- The draw of lines 268-277 for the bracket `(i - 1, i)`. -/
theorem currentScan_hit (rng : RandomSource) (drawn : Nat) (angle : ℚ) (i : Nat)
    (hi1 : 1 ≤ i) (hi : i ≤ 10)
    (hlo : sampleAngle (i - 1) < angle) (hhi : angle ≤ sampleAngle i) :
    ∀ d idx, idx + d = i → 1 ≤ idx →
      currentScan rng drawn angle idx =
        (Returned.value (rng.normal drawn
          (interpolate (sampleAngle (i - 1)) (sampleMean (i - 1)) (sampleAngle i) (sampleMean i)
            angle)
          (interpolate (sampleAngle (i - 1)) (sampleStddev (i - 1)) (sampleAngle i)
            (sampleStddev i) angle)),
          drawn + 1) := by
  intro d
  induction d with
  | zero =>
    intro idx hidx _
    have hidx : idx = i := by omega
    subst hidx
    rw [currentScan]
    have hb : idx < sizeofCurrentSamples := by unfold sizeofCurrentSamples; omega
    simp [hb, currentRow_eq (idx - 1) (by omega), currentRow_eq idx hi,
      currentAngle_eq (idx - 1) (by omega), currentAngle_eq idx hi, hlo, hhi, interpolate]
  | succ d ih =>
    intro idx hidx h1
    rw [currentScan]
    have hb : idx < sizeofCurrentSamples := by unfold sizeofCurrentSamples; omega
    have hnot : ¬ angle ≤ sampleAngle idx :=
      not_le.mpr (lt_of_le_of_lt (sampleAngle_mono (by omega) (by omega)) hlo)
    have hrec := ih (idx + 1) (by omega) (by omega)
    simp only [hb, if_true, currentRow_eq (idx - 1) (by omega), currentRow_eq idx (by omega),
      currentAngle_eq (idx - 1) (by omega), currentAngle_eq idx (by omega), hnot, if_false, hrec]
    split <;> rfl

/-- Above 90 degrees the speed scan reads row 11, which is outside the table. -/
theorem speedScan_above (angle : ℚ) (h : 90 < angle) :
    ∀ d idx, idx + d = 11 → 1 ≤ idx → speedScan angle idx = Returned.outOfBounds 11 := by
  intro d
  induction d with
  | zero =>
    intro idx hidx _
    have hidx : idx = 11 := by omega
    subst hidx
    rw [speedScan]
    have h10 : sampleAngle 10 < angle := by rw [sampleAngle_ten]; exact h
    simp [sizeofSpeedSamples, speedRow_eq 10 (le_refl 10), speedRow_eleven, h10]
  | succ d ih =>
    intro idx hidx h1
    rw [speedScan]
    have hb : idx < sizeofSpeedSamples := by unfold sizeofSpeedSamples; omega
    have hnot : ¬ angle ≤ sampleAngle idx :=
      not_le.mpr (lt_of_le_of_lt (sampleAngle_le idx (by omega)) h)
    have hrec := ih (idx + 1) (by omega) (by omega)
    simp only [hb, if_true, speedRow_eq (idx - 1) (by omega), speedRow_eq idx (by omega),
      hnot, if_false, hrec]
    split <;> rfl

/-- Below -90 degrees the speed scan reads row 11, which is outside the table. -/
theorem speedScan_below (angle : ℚ) (h : angle < -90) :
    ∀ d idx, idx + d = 12 → 1 ≤ idx → speedScan angle idx = Returned.outOfBounds 11 := by
  intro d
  induction d with
  | zero =>
    intro idx hidx _
    have hidx : idx = 12 := by omega
    subst hidx
    rw [speedScan]
    simp [sizeofSpeedSamples, speedRow_eleven]
  | succ d ih =>
    intro idx hidx h1
    rw [speedScan]
    have hb : idx < sizeofSpeedSamples := by unfold sizeofSpeedSamples; omega
    have hnot : ¬ sampleAngle (idx - 1) < angle :=
      not_lt.mpr (le_trans (le_of_lt h) (sampleAngle_ge (idx - 1) (by omega)))
    have hrec := ih (idx + 1) (by omega) (by omega)
    simp only [hb, if_true, speedRow_eq (idx - 1) (by omega), hnot, if_false, hrec]

/-- Above 90 degrees the current scan reads row 11, which is outside the table. -/
theorem currentScan_above (rng : RandomSource) (drawn : Nat) (angle : ℚ) (h : 90 < angle) :
    ∀ d idx, idx + d = 11 → 1 ≤ idx →
      currentScan rng drawn angle idx = (Returned.outOfBounds 11, drawn) := by
  intro d
  induction d with
  | zero =>
    intro idx hidx _
    have hidx : idx = 11 := by omega
    subst hidx
    rw [currentScan]
    have h10 : sampleAngle 10 < angle := by rw [sampleAngle_ten]; exact h
    simp [sizeofCurrentSamples, currentRow_eq 10 (le_refl 10), currentRow_eleven,
      currentAngle_eq 10 (le_refl 10), h10]
  | succ d ih =>
    intro idx hidx h1
    rw [currentScan]
    have hb : idx < sizeofCurrentSamples := by unfold sizeofCurrentSamples; omega
    have hnot : ¬ angle ≤ sampleAngle idx :=
      not_le.mpr (lt_of_le_of_lt (sampleAngle_le idx (by omega)) h)
    have hrec := ih (idx + 1) (by omega) (by omega)
    simp only [hb, if_true, currentRow_eq (idx - 1) (by omega), currentRow_eq idx (by omega),
      currentAngle_eq idx (by omega), hnot, if_false, hrec]
    split <;> rfl

/-- Below -90 degrees the current scan reads row 11, which is outside the table. -/
theorem currentScan_below (rng : RandomSource) (drawn : Nat) (angle : ℚ) (h : angle < -90) :
    ∀ d idx, idx + d = 12 → 1 ≤ idx →
      currentScan rng drawn angle idx = (Returned.outOfBounds 11, drawn) := by
  intro d
  induction d with
  | zero =>
    intro idx hidx _
    have hidx : idx = 12 := by omega
    subst hidx
    rw [currentScan]
    simp [sizeofCurrentSamples, currentRow_eleven]
  | succ d ih =>
    intro idx hidx h1
    rw [currentScan]
    have hb : idx < sizeofCurrentSamples := by unfold sizeofCurrentSamples; omega
    have hnot : ¬ sampleAngle (idx - 1) < angle :=
      not_lt.mpr (le_trans (le_of_lt h) (sampleAngle_ge (idx - 1) (by omega)))
    have hrec := ih (idx + 1) (by omega) (by omega)
    simp only [hb, if_true, currentRow_eq (idx - 1) (by omega),
      currentAngle_eq (idx - 1) (by omega), hnot, if_false, hrec]

theorem getSpeedFromAngle_off_boundary (angle : ℚ) (h : angle ≠ -90) :
    getSpeedFromAngle angle = speedScan angle 1 := by
  simp [getSpeedFromAngle, speedRow_eq 0 (by omega), sampleAngle_zero, h]

theorem getCurrentFromAngle_off_boundary (rng : RandomSource) (drawn : Nat) (angle : ℚ)
    (h : angle ≠ -90) :
    getCurrentFromAngle rng drawn angle = currentScan rng drawn angle 1 := by
  simp [getCurrentFromAngle, currentRow_eq 0 (by omega), currentAngle_eq 0 (by omega),
    sampleAngle_zero, h]

theorem getSpeedFromAngle_boundary : getSpeedFromAngle (-90) = Returned.value (sampleSpeed 0) := by
  simp [getSpeedFromAngle, speedRow_eq 0 (by omega), sampleAngle_zero]

theorem getCurrentFromAngle_boundary (rng : RandomSource) (drawn : Nat) :
    getCurrentFromAngle rng drawn (-90) = (Returned.value (sampleMean 0), drawn) := by
  simp [getCurrentFromAngle, currentRow_eq 0 (by omega), currentAngle_eq 0 (by omega),
    sampleAngle_zero]

/-- Every angle in `(-90, 90]` has a bracket `(i - 1, i)` with `1 <= i <= 10`. -/
theorem bracket_exists (angle : ℚ) (hlo : -90 < angle) (hhi : angle ≤ 90) :
    ∃ i, 1 ≤ i ∧ i ≤ 10 ∧ sampleAngle (i - 1) < angle ∧ angle ≤ sampleAngle i := by
  have hex : ∃ i, angle ≤ sampleAngle i := ⟨10, by rw [sampleAngle_ten]; exact hhi⟩
  have hspec : angle ≤ sampleAngle (Nat.find hex) := Nat.find_spec hex
  have hle : Nat.find hex ≤ 10 := Nat.find_min' hex (by rw [sampleAngle_ten]; exact hhi)
  have hpos : 1 ≤ Nat.find hex := by
    rcases Nat.eq_zero_or_pos (Nat.find hex) with h0 | h0
    · rw [h0, sampleAngle_zero] at hspec
      exact absurd hspec (not_le.mpr hlo)
    · exact h0
  exact ⟨Nat.find hex, hpos, hle, not_le.mp (Nat.find_min hex (by omega)), hspec⟩

/-- The interpolant at the right end of a bracket is the right sample value. -/
theorem interpolate_right (x0 y0 x1 y1 : ℚ) (h : x0 < x1) : interpolate x0 y0 x1 y1 x1 = y1 := by
  unfold interpolate
  have hne : x1 - x0 ≠ 0 := sub_ne_zero.mpr (ne_of_gt h)
  field_simp

/-- The interpolant at the left end of a bracket is the left sample value. -/
theorem interpolate_left (x0 y0 x1 y1 : ℚ) : interpolate x0 y0 x1 y1 x0 = y0 := by
  unfold interpolate
  simp

/-- The interpolant lies between the two sample values. -/
theorem interpolate_between (x0 y0 x1 y1 angle : ℚ) (h : x0 < x1) (hlo : x0 ≤ angle)
    (hhi : angle ≤ x1) :
    min y0 y1 ≤ interpolate x0 y0 x1 y1 angle ∧ interpolate x0 y0 x1 y1 angle ≤ max y0 y1 := by
  have hpos : 0 < x1 - x0 := sub_pos.mpr h
  have ht0 : 0 ≤ (angle - x0) / (x1 - x0) := div_nonneg (sub_nonneg.mpr hlo) (le_of_lt hpos)
  have ht1 : (angle - x0) / (x1 - x0) ≤ 1 := by
    rw [div_le_one hpos]; linarith
  have hform : interpolate x0 y0 x1 y1 angle
      = y0 + (y1 - y0) * ((angle - x0) / (x1 - x0)) := by
    unfold interpolate; ring
  rw [hform]
  rcases le_total y0 y1 with hy | hy
  · rw [min_eq_left hy, max_eq_right hy]
    constructor
    · nlinarith [mul_nonneg (sub_nonneg.mpr hy) ht0]
    · nlinarith [mul_nonneg (sub_nonneg.mpr hy) (sub_nonneg.mpr ht1)]
  · rw [min_eq_right hy, max_eq_left hy]
    constructor
    · nlinarith [mul_nonneg (sub_nonneg.mpr hy) (sub_nonneg.mpr ht1)]
    · nlinarith [mul_nonneg (sub_nonneg.mpr hy) ht0]

theorem sampleSpeed_range (k : Nat) (hk : k ≤ 10) :
    1.837303 ≤ sampleSpeed k ∧ sampleSpeed k ≤ 8.056741 := by
  interval_cases k <;> norm_num [sampleSpeed, speedRow, speedSamples]

/-! ## Claims about the two tables -/

/-- C11. `getSpeedFromAngle(-90)` returns the first sample's speed 1.837303 and
`getCurrentFromAngle(-90)` returns the first sample's mean 16.86701; at every one of the 11
sample angles the speed returned is the tabulated speed; at the sample angles 1 to 10 the
current is drawn with the tabulated mean and the tabulated standard deviation; and the
interpolation formula evaluated at the left end of any bracket (the sample angle 0 included)
gives the tabulated speed, mean and standard deviation. All in exact arithmetic. -/
theorem interpolation_exact_at_samples :
    getSpeedFromAngle (-90) = Returned.value 1.837303
      ∧ (∀ (rng : RandomSource) (drawn : Nat),
          getCurrentFromAngle rng drawn (-90) = (Returned.value 16.86701, drawn))
      ∧ (∀ i, i ≤ 10 → getSpeedFromAngle (sampleAngle i) = Returned.value (sampleSpeed i))
      ∧ (∀ i, 1 ≤ i → i ≤ 10 → ∀ (rng : RandomSource) (drawn : Nat),
          getCurrentFromAngle rng drawn (sampleAngle i)
            = (Returned.value (rng.normal drawn (sampleMean i) (sampleStddev i)), drawn + 1))
      ∧ (∀ i, i < 10 →
          interpolate (sampleAngle i) (sampleSpeed i) (sampleAngle (i + 1)) (sampleSpeed (i + 1))
              (sampleAngle i) = sampleSpeed i
            ∧ interpolate (sampleAngle i) (sampleMean i) (sampleAngle (i + 1))
                (sampleMean (i + 1)) (sampleAngle i) = sampleMean i
            ∧ interpolate (sampleAngle i) (sampleStddev i) (sampleAngle (i + 1))
                (sampleStddev (i + 1)) (sampleAngle i) = sampleStddev i) := by
  have hstep : ∀ i, 1 ≤ i → i ≤ 10 → sampleAngle (i - 1) < sampleAngle i := by
    intro i h1 h10
    have := sampleAngle_step (i - 1) (by omega)
    rwa [Nat.sub_add_cancel h1] at this
  have hne : ∀ i, 1 ≤ i → i ≤ 10 → sampleAngle i ≠ -90 := by
    intro i h1 h10
    have h := lt_of_le_of_lt (sampleAngle_ge (i - 1) (by omega)) (hstep i h1 h10)
    exact ne_of_gt h
  refine ⟨?_, ?_, ?_, ?_, ?_⟩
  · rw [getSpeedFromAngle_boundary]
    norm_num [sampleSpeed, speedRow, speedSamples]
  · intro rng drawn
    rw [getCurrentFromAngle_boundary]
    norm_num [sampleMean, currentRow, currentSamples]
  · intro i h10
    rcases Nat.eq_zero_or_pos i with h0 | h1
    · subst h0
      rw [sampleAngle_zero, getSpeedFromAngle_boundary]
    · rw [getSpeedFromAngle_off_boundary _ (hne i h1 h10),
        speedScan_hit (sampleAngle i) i h1 h10 (hstep i h1 h10) (le_refl _) (i - 1) 1
          (by omega) (le_refl 1)]
      exact congrArg Returned.value (interpolate_right _ _ _ _ (hstep i h1 h10))
  · intro i h1 h10 rng drawn
    rw [getCurrentFromAngle_off_boundary _ _ _ (hne i h1 h10),
      currentScan_hit rng drawn (sampleAngle i) i h1 h10 (hstep i h1 h10) (le_refl _) (i - 1) 1
        (by omega) (le_refl 1),
      interpolate_right _ _ _ _ (hstep i h1 h10), interpolate_right _ _ _ _ (hstep i h1 h10)]
  · intro i _
    exact ⟨interpolate_left _ _ _ _, interpolate_left _ _ _ _, interpolate_left _ _ _ _⟩

/-- C12 (the code at the failing input). At the lower boundary angle -90
`getCurrentFromAngle` returns the mean 16.86701 itself and draws nothing from the random source,
so for a source whose draw differs from the mean the result is not a draw
`normal(rng, 16.86701, 0.7651131)`; for every other angle of the domain, `-90 < angle <= 90`,
the result is one draw with the mean and the standard deviation interpolated on the bracket of
the angle. -/
theorem getCurrentFromAngle_draws_off_boundary_only :
    (∀ (rng : RandomSource) (drawn : Nat),
        getCurrentFromAngle rng drawn (-90) = (Returned.value 16.86701, drawn))
      ∧ getCurrentFromAngle exampleRandom 0 (-90)
          ≠ (Returned.value (exampleRandom.normal 0 16.86701 0.7651131), 1)
      ∧ (getCurrentFromAngle exampleRandom 0 (-90)).1
          ≠ Returned.value (exampleRandom.normal 0 16.86701 0.7651131)
      ∧ (∀ (rng : RandomSource) (drawn : Nat) (angle : ℚ), -90 < angle → angle ≤ 90 →
          ∃ i, 1 ≤ i ∧ i ≤ 10 ∧ sampleAngle (i - 1) < angle ∧ angle ≤ sampleAngle i
            ∧ getCurrentFromAngle rng drawn angle =
                (Returned.value (rng.normal drawn
                  (interpolate (sampleAngle (i - 1)) (sampleMean (i - 1)) (sampleAngle i)
                    (sampleMean i) angle)
                  (interpolate (sampleAngle (i - 1)) (sampleStddev (i - 1)) (sampleAngle i)
                    (sampleStddev i) angle)),
                  drawn + 1)) := by
  have hb : ∀ (rng : RandomSource) (drawn : Nat),
      getCurrentFromAngle rng drawn (-90) = (Returned.value 16.86701, drawn) := by
    intro rng drawn
    rw [getCurrentFromAngle_boundary]
    norm_num [sampleMean, currentRow, currentSamples]
  refine ⟨hb, ?_, ?_, ?_⟩
  · rw [hb]
    simp
  · rw [hb]
    norm_num [exampleRandom]
  · intro rng drawn angle hlo hhi
    obtain ⟨i, h1, h10, hl, hh⟩ := bracket_exists angle hlo hhi
    refine ⟨i, h1, h10, hl, hh, ?_⟩
    rw [getCurrentFromAngle_off_boundary _ _ _ (ne_of_gt hlo),
      currentScan_hit rng drawn angle i h1 h10 hl hh (i - 1) 1 (by omega) (le_refl 1)]

/-- C13 (the code at the failing inputs). For an angle below -90 or above 90 neither function
throws: the scan, bounded by `sizeof(samples)`, goes on after the 11 rows and reads row 11,
which is outside the table. -/
theorem out_of_domain_reads_outside_table (angle : ℚ) (h : angle < -90 ∨ 90 < angle) :
    getSpeedFromAngle angle = Returned.outOfBounds 11
      ∧ ∀ (rng : RandomSource) (drawn : Nat),
          getCurrentFromAngle rng drawn angle = (Returned.outOfBounds 11, drawn) := by
  have hne : angle ≠ -90 := by
    rcases h with h | h
    · exact ne_of_lt h
    · exact ne_of_gt (lt_trans (by norm_num) h)
  rcases h with h | h
  · refine ⟨?_, fun rng drawn => ?_⟩
    · rw [getSpeedFromAngle_off_boundary _ hne]
      exact speedScan_below angle h 11 1 rfl (le_refl 1)
    · rw [getCurrentFromAngle_off_boundary _ _ _ hne]
      exact currentScan_below rng drawn angle h 11 1 rfl (le_refl 1)
  · refine ⟨?_, fun rng drawn => ?_⟩
    · rw [getSpeedFromAngle_off_boundary _ hne]
      exact speedScan_above angle h 10 1 rfl (le_refl 1)
    · rw [getCurrentFromAngle_off_boundary _ _ _ hne]
      exact currentScan_above rng drawn angle h 10 1 rfl (le_refl 1)

/-- Witness of `out_of_domain_reads_outside_table` at 100 degrees. -/
theorem out_of_domain_reads_outside_table_witness :
    ((100 : ℚ) < -90 ∨ (90 : ℚ) < 100)
      ∧ getSpeedFromAngle 100 = Returned.outOfBounds 11
      ∧ ∀ (rng : RandomSource) (drawn : Nat),
          getCurrentFromAngle rng drawn 100 = (Returned.outOfBounds 11, drawn) :=
  ⟨Or.inr (by norm_num), out_of_domain_reads_outside_table 100 (Or.inr (by norm_num))⟩

/-- C20. For every angle in `[-90, 90]`, `getSpeedFromAngle` returns a value that lies between
the speeds of the two samples of a bracket containing the angle, hence between 1.837303 and
8.056741, and is strictly positive. -/
theorem getSpeedFromAngle_bounds (angle : ℚ) (hlo : -90 ≤ angle) (hhi : angle ≤ 90) :
    ∃ v, getSpeedFromAngle angle = Returned.value v
      ∧ (∃ i, 1 ≤ i ∧ i ≤ 10 ∧ sampleAngle (i - 1) ≤ angle ∧ angle ≤ sampleAngle i
          ∧ min (sampleSpeed (i - 1)) (sampleSpeed i) ≤ v
          ∧ v ≤ max (sampleSpeed (i - 1)) (sampleSpeed i))
      ∧ 1.837303 ≤ v ∧ v ≤ 8.056741 ∧ 0 < v := by
  have hall : ∀ v i, 1 ≤ i → i ≤ 10 → min (sampleSpeed (i - 1)) (sampleSpeed i) ≤ v →
      v ≤ max (sampleSpeed (i - 1)) (sampleSpeed i) →
      1.837303 ≤ v ∧ v ≤ 8.056741 ∧ 0 < v := by
    intro v i h1 h10 hmin hmax
    have ha := sampleSpeed_range (i - 1) (by omega)
    have hb := sampleSpeed_range i h10
    have h2 : (1.837303 : ℚ) ≤ v := le_trans (le_min ha.1 hb.1) hmin
    exact ⟨h2, le_trans hmax (max_le ha.2 hb.2), lt_of_lt_of_le (by norm_num) h2⟩
  rcases eq_or_lt_of_le hlo with heq | hlt
  · subst heq
    refine ⟨sampleSpeed 0, getSpeedFromAngle_boundary, ?_⟩
    have hbr : min (sampleSpeed (1 - 1)) (sampleSpeed 1) ≤ sampleSpeed 0
        ∧ sampleSpeed 0 ≤ max (sampleSpeed (1 - 1)) (sampleSpeed 1) :=
      ⟨min_le_left _ _, le_max_left _ _⟩
    refine ⟨⟨1, le_refl 1, by omega, ?_, ?_, hbr.1, hbr.2⟩, hall _ 1 (le_refl 1) (by omega) hbr.1 hbr.2⟩
    · rw [sampleAngle_zero]
    · exact le_trans (le_of_eq sampleAngle_zero.symm) (le_of_lt (sampleAngle_step 0 (by omega)))
  · obtain ⟨i, h1, h10, hl, hh⟩ := bracket_exists angle hlt hhi
    have hstep : sampleAngle (i - 1) < sampleAngle i := lt_of_lt_of_le hl hh
    have hbr := interpolate_between (sampleAngle (i - 1)) (sampleSpeed (i - 1)) (sampleAngle i)
      (sampleSpeed i) angle hstep (le_of_lt hl) hh
    refine ⟨interpolate (sampleAngle (i - 1)) (sampleSpeed (i - 1)) (sampleAngle i)
      (sampleSpeed i) angle, ?_, ⟨i, h1, h10, le_of_lt hl, hh, hbr.1, hbr.2⟩,
      hall _ i h1 h10 hbr.1 hbr.2⟩
    rw [getSpeedFromAngle_off_boundary _ (ne_of_gt hlt),
      speedScan_hit angle i h1 h10 hl hh (i - 1) 1 (by omega) (le_refl 1)]
    rfl

/-- Witness of `getSpeedFromAngle_bounds` at the lower boundary. -/
theorem getSpeedFromAngle_bounds_witness :
    ((-90 : ℚ) ≤ -90 ∧ (-90 : ℚ) ≤ 90)
      ∧ ∃ v, getSpeedFromAngle (-90) = Returned.value v
        ∧ (∃ i, 1 ≤ i ∧ i ≤ 10 ∧ sampleAngle (i - 1) ≤ -90 ∧ -90 ≤ sampleAngle i
            ∧ min (sampleSpeed (i - 1)) (sampleSpeed i) ≤ v
            ∧ v ≤ max (sampleSpeed (i - 1)) (sampleSpeed i))
        ∧ 1.837303 ≤ v ∧ v ≤ 8.056741 ∧ 0 < v :=
  ⟨⟨le_refl _, by norm_num⟩, getSpeedFromAngle_bounds (-90) (le_refl _) (by norm_num)⟩

/-! ## Auxiliary facts about the forecast -/

theorem energyForCommandM_ofEnv (env : Env) (command : Command) (fromX fromY fromZ : ℚ)
    (n : UAVNode) :
    energyForCommandM (Collaborators.ofEnv env) command fromX fromY fromZ n
      = (energyForCommand env command fromX fromY fromZ, n) := by
  unfold energyForCommandM energyForCommand
  cases hs : scheduledFor command with
  | none => rfl
  | some cast =>
    have hcast : newCEE cast.ceeType command = cast := by
      cases command <;> simp [scheduledFor] at hs <;> subst hs <;> rfl
    simp only [Collaborators.ofEnv, hcast, bindCEE]

theorem energyToNearestCNM_ofEnv (env : Env) (fromX fromY fromZ : ℚ) (n : UAVNode) :
    energyToNearestCNM (Collaborators.ofEnv env) fromX fromY fromZ n
      = (energyToNearestCN env fromX fromY fromZ, n) := rfl

/-- With collaborators given by oracles the threaded loop is the loop over the oracles. -/
theorem endOfOperationLoopM_ofEnv (env : Env) :
    ∀ (fuel : Nat) (l : ForecastLocals) (n : UAVNode),
      endOfOperationLoopM (Collaborators.ofEnv env) fuel l n
        = (endOfOperationLoop env n fuel l, n) := by
  intro fuel
  induction fuel with
  | zero => intro l n; rfl
  | succ fuel ih =>
    intro l n
    unfold endOfOperationLoopM endOfOperationLoop
    simp only [energyForCommandM_ofEnv, energyToNearestCNM_ofEnv, ih]
    split
    · rfl
    · split
      · rfl
      · split
        · rfl
        · split
          · rfl
          · split <;> rfl

theorem endOfOperationM_ofEnv (env : Env) (s : UAVNode) (fuel : Nat) :
    endOfOperationM (Collaborators.ofEnv env) s fuel = endOfOperation env s fuel := by
  unfold endOfOperationM endOfOperation
  rw [endOfOperationLoopM_ofEnv]

/-- The frame condition on the collaborators cannot be dropped: with a prediction that takes
charge from the battery, one iteration of the forecast leaves another node. -/
theorem forecast_needs_frame_condition :
    (endOfOperationM drainingCollaborators shuttleNode 1).2 ≠ shuttleNode := by
  decide!

/-- C19. When `selectNextCommand` takes the detour branch on a queue `c :: rest`, the resulting
queue is `Charge(nearestCN) :: rest` when repeat mode is off or `c` is a takeoff command, and
`Charge(nearestCN) :: rest ++ [c]` when repeat mode is on and `c` is not a takeoff command: the
final dequeue removes the re-inserted command `c`, the charge command is the new front. -/
theorem detour_dequeues_original_command (env : Env) (s : UAVNode) (c : Command)
    (rest : List Command) (l : EnergyLog)
    (hq : s.commands = c :: rest) (hl : (selectNextCommand env s).1 = Except.ok l)
    (hd : l.isDetour = true) :
    ((s.commandsRepeat = false ∨ c.isTakeoff = true) →
        (selectNextCommand env s).2.commands
          = Command.Charge (env.findNearestCN s.x s.y s.z) :: rest)
      ∧ ((s.commandsRepeat = true ∧ c.isTakeoff = false) →
          (selectNextCommand env s).2.commands
            = Command.Charge (env.findNearestCN s.x s.y s.z) :: (rest ++ [c]))
      ∧ (selectNextCommand env s).2.commands.head?
          = some (Command.Charge (env.findNearestCN s.x s.y s.z))
      ∧ c.isCharge = false := by
  cases hc : scheduledFor c with
  | none => simp [selectNextCommand, hq, hc] at hl
  | some cee =>
    rw [selectNextCommand_cons env s hq hc] at hl ⊢
    have hl1 : (elect env s c rest (bindCEE env cee s.x s.y s.z)).log = l := by
      simpa using hl
    have hnc : c.isCharge = false := by
      cases hch : c.isCharge with
      | false => rfl
      | true =>
        have hk : (bindCEE env cee s.x s.y s.z).ceeType = CeeType.CHARGE := by
          rw [bindCEE_ceeType]; exact (scheduledFor_ceeType hc).mpr hch
        rw [elect_charge env s c rest _ hk] at hl1
        rw [← hl1] at hd
        exact Bool.noConfusion hd
    rcases elect_shape env s c rest (bindCEE env cee s.x s.y s.z) with ⟨_, h2⟩ | ⟨h1, _⟩
    · rw [hl1, hd] at h2
      exact Bool.noConfusion h2
    · rw [h1, activate_cons]
      refine ⟨?_, ?_, ?_, hnc⟩
      · rintro (hr | ht)
        · simp [hr]
        · simp [Command.isReinjected, ht]
      · rintro ⟨hr, ht⟩
        simp [Command.isReinjected, hr, ht, hnc]
      · split <;> rfl

/-- Witness of `detour_dequeues_original_command` at `weakNode` (repeat mode) . -/
theorem detour_dequeues_original_command_witness :
    (selectNextCommand exampleEnv weakNode).2.commands
      = Command.Charge (exampleEnv.findNearestCN weakNode.x weakNode.y weakNode.z)
        :: ([] ++ [Command.Waypoint 50 0 2]) :=
  (detour_dequeues_original_command exampleEnv weakNode (Command.Waypoint 50 0 2) []
    EnergyLog.GoingToCN rfl
    (by
      simp [selectNextCommand, scheduledFor, elect, weakNode, exampleNode, exampleEnv, span,
        bindCEE, newCEE, CommandExecEngine.setFromCoordinates, CommandExecEngine.initializeCEE,
        energyRemaining, energyForSheduled, energyToCNAfter, energyToCN, energyToNearestCN,
        goToChargingNodeCEE, Battery.getRemaining, Battery.isEmpty]
      norm_num)
    rfl).2.1 ⟨rfl, rfl⟩

/-! ## Termination of the forecast -/

end UAV
